import Mathlib
/-!
Shallow embedding of the LuxCore film hardware image pipeline
(`src/slg/film/filmimagepipelinehw.cpp`).

The stateful, device-driving code is modelled as pure functions that
return the trace of hardware-device calls each C++ member function
performs.  C++ `std::vector` indexing is modelled with `List` lookup
returning `Option`: an out-of-bounds access (undefined behaviour in the
source) makes the embedded function return `none`.  Machine floats
(`float`/`double` scales and sample counts) are modelled as rationals.
-/

/-- Device type tags, from `luxrays::DeviceDescription::GetType()`.
Only the two tags inspected by `Film::CreateHWContext` matter; the other
constructors stand for the remaining hardware device classes that survive
the `DEVICE_TYPE_ALL_HARDWARE` filter. -/
inductive DeviceType where
  | DEVICE_TYPE_CUDA_GPU
  | DEVICE_TYPE_OPENCL_GPU
  | DEVICE_TYPE_OPENCL_CPU
  | DEVICE_TYPE_OTHER_HARDWARE
deriving DecidableEq

/-- One descriptor of the filtered list `descs` in `Film::CreateHWContext`.
`devId` models the identity of the underlying C++ object so that two
descriptors of the same type remain distinguishable. -/
structure DeviceDescription where
  devId : Nat
  devType : DeviceType
deriving DecidableEq

/-- The device scan loop of `Film::CreateHWContext` (lines 73-86): walk the
descriptors in order carrying the current `selectedDeviceDesc` accumulator;
a CUDA GPU returns immediately (`break`), an OpenCL GPU overwrites the
accumulator and the scan continues. -/
def selectHWDeviceLoop : List DeviceDescription → Option DeviceDescription → Option DeviceDescription
  | [], sel => sel
  | d :: rest, sel =>
    if d.devType = DeviceType.DEVICE_TYPE_CUDA_GPU then some d
    else if d.devType = DeviceType.DEVICE_TYPE_OPENCL_GPU then selectHWDeviceLoop rest (some d)
    else selectHWDeviceLoop rest sel

/-- Device selection in `Film::CreateHWContext` (lines 66-90): the value of
`selectedDeviceDesc` as a function of `hwEnable`, `hwDeviceIndex` and the
filtered descriptor list. -/
def Film.CreateHWContextSelect (hwEnable : Bool) (hwDeviceIndex : Int)
    (descs : List DeviceDescription) : Option DeviceDescription :=
  if hwEnable then
    if 0 ≤ hwDeviceIndex ∧ hwDeviceIndex < (descs.length : Int) then
      descs[hwDeviceIndex.toNat]?
    else if 0 < descs.length then
      selectHWDeviceLoop descs none
    else
      none
  else
    none

/-- The selection policy exactly as the specification words it: honor a
pinned in-range index; otherwise the first CUDA GPU wins immediately, and
failing that the FIRST-seen OpenCL GPU is the candidate selected. -/
def Film.CreateHWContextSelectClaimed (hwEnable : Bool) (hwDeviceIndex : Int)
    (descs : List DeviceDescription) : Option DeviceDescription :=
  if hwEnable then
    if 0 ≤ hwDeviceIndex ∧ hwDeviceIndex < (descs.length : Int) then
      descs[hwDeviceIndex.toNat]?
    else
      match descs.find? (fun d => d.devType = DeviceType.DEVICE_TYPE_CUDA_GPU) with
      | some d => some d
      | none => descs.find? (fun d => d.devType = DeviceType.DEVICE_TYPE_OPENCL_GPU)
  else
    none

/-- The last OpenCL GPU descriptor of the list, if any. -/
def lastOpenCLGPU : List DeviceDescription → Option DeviceDescription
  | [] => none
  | d :: rest =>
    match lastOpenCLGPU rest with
    | some d2 => some d2
    | none =>
      if d.devType = DeviceType.DEVICE_TYPE_OPENCL_GPU then some d else none

/-- The selection policy the code actually implements: honor a pinned
in-range index; otherwise the first CUDA GPU wins immediately, and failing
that the LAST-seen OpenCL GPU (the accumulator is overwritten at every
OpenCL GPU) is selected. -/
def Film.CreateHWContextSelectAmended (hwEnable : Bool) (hwDeviceIndex : Int)
    (descs : List DeviceDescription) : Option DeviceDescription :=
  if hwEnable then
    if 0 ≤ hwDeviceIndex ∧ hwDeviceIndex < (descs.length : Int) then
      descs[hwDeviceIndex.toNat]?
    else
      match descs.find? (fun d => d.devType = DeviceType.DEVICE_TYPE_CUDA_GPU) with
      | some d => some d
      | none =>
        match lastOpenCLGPU descs with
        | some d => some d
        | none => none
  else
    none

/-- RGB triple, modelling `slg::Spectrum` with rational components in
place of machine floats. `c0 c1 c2` stand for `scale.c[0..2]`. -/
structure Spectrum where
  c0 : ℚ
  c1 : ℚ
  c2 : ℚ
deriving DecidableEq

/-- `Spectrum(1.f)`. -/
def unitSpectrum : Spectrum := ⟨1, 1, 1⟩

/-- Scalar times spectrum, modelling `factor * Spectrum`. -/
def smulSpectrum (q : ℚ) (s : Spectrum) : Spectrum := ⟨q * s.c0, q * s.c1, q * s.c2⟩

/-- One per-group configuration entry `ImagePipeline::radianceChannelScales[i]`:
the `enabled` flag and the value returned by `GetScale()`. -/
structure RadianceChannelScale where
  enabled : Bool
  scale : Spectrum
deriving DecidableEq

/-- The part of `slg::ImagePipeline` this file reads: the per-light-group
scale table. -/
structure ImagePipeline where
  radianceChannelScales : List RadianceChannelScale
deriving DecidableEq

/-- One host-side film channel (`GenericFrameBuffer`): its byte size as
returned by `GetSize()` and its pixel storage as returned by `GetPixels()`. -/
structure Channel where
  size : Nat
  pixels : List ℚ
deriving DecidableEq

/-- The film state read by the hardware image pipeline code: channel
presence flags (`HasChannel`), the channel storages, the image pipelines,
the group count, the pixel count and the per-screen-normalized sample
count (`samplesCounts.GetSampleCount_RADIANCE_PER_SCREEN_NORMALIZED()`). -/
structure FilmState where
  imagePipelines : List ImagePipeline
  channel_IMAGEPIPELINEs : List Channel
  hasRadiancePerPixelNormalized : Bool
  hasRadiancePerScreenNormalized : Bool
  channel_RADIANCE_PER_PIXEL_NORMALIZEDs : List Channel
  channel_RADIANCE_PER_SCREEN_NORMALIZEDs : List Channel
  radianceGroupCount : Nat
  pixelCount : Nat
  perScreenSampleCount : ℚ
  hasAlpha : Bool
  hasObjectID : Bool
  channel_ALPHA : Channel
  channel_OBJECT_ID : Channel
  width : Nat
  height : Nat
deriving DecidableEq

/-- Device buffer handles of the film (`hw_*` members). -/
inductive BufId where
  | IMAGEPIPELINE
  | ALPHA
  | OBJECT_ID
  | mergeBuffer
deriving DecidableEq

/-- The four merge kernel handles of the film. -/
inductive KernelId where
  | mergeInitializeKernel
  | mergeRADIANCE_PER_PIXEL_NORMALIZEDKernel
  | mergeRADIANCE_PER_SCREEN_NORMALIZEDKernel
  | mergeFinalizeKernel
deriving DecidableEq

/-- Identifies one host-side pixel storage handed to the device as a
transfer source or destination. -/
inductive HostLoc where
  | imagePipelineChannel (i : Nat)
  | radiancePerPixelChannel (i : Nat)
  | radiancePerScreenChannel (i : Nat)
  | alphaChannel
  | objectIdChannel
deriving DecidableEq

/-- One call to the `HardwareDevice` interface, as issued by
`Film::MergeSampleBuffersHW`: `enqueueWrite`/`enqueueRead` carry the
blocking flag, the byte size and the host location of the transfer;
`enqueueKernel` carries the 1-D global and workgroup sizes;
`setKernelArg` carries the argument slot and the scalar bound to it. -/
inductive HWOp where
  | enqueueWrite (buf : BufId) (blocking : Bool) (size : Nat) (src : HostLoc)
  | enqueueKernel (k : KernelId) (globalSize : Nat) (workgroupSize : Nat)
  | setKernelArg (k : KernelId) (slot : Nat) (v : ℚ)
  | enqueueRead (buf : BufId) (blocking : Bool) (size : Nat) (dst : HostLoc)
  | finishQueue
deriving DecidableEq

/-- `luxrays::RoundUp` for unsigned integers: `((a + b - 1) / b) * b`. -/
def roundUp (a b : Nat) : Nat := ((a + b - 1) / b) * b

/-- The per-screen normalization factor of `Film::MergeSampleBuffersHW`
(line 295): `(count > 0) ? (pixelCount / count) : 1.f`. -/
def perScreenFactor (pixelCount : Nat) (sampleCount : ℚ) : ℚ :=
  if 0 < sampleCount then (pixelCount : ℚ) / sampleCount else 1

/-- `!ip || ip->radianceChannelScales[i].enabled`: `none` models an
out-of-bounds scale-table access. -/
def enabledFor (ip : Option ImagePipeline) (i : Nat) : Option Bool :=
  match ip with
  | none => some true
  | some p => (p.radianceChannelScales[i]?).map RadianceChannelScale.enabled

/-- `ip ? ip->radianceChannelScales[i].GetScale() : Spectrum(1.f)`. -/
def scaleFor (ip : Option ImagePipeline) (i : Nat) : Option Spectrum :=
  match ip with
  | none => some unitSpectrum
  | some p => (p.radianceChannelScales[i]?).map RadianceChannelScale.scale

/-- Loop body for group `i` of the `RADIANCE_PER_PIXEL_NORMALIZED` loop
(lines 274-290): if the group is enabled, upload the group channel into the
merge buffer, bind scale slots 4, 5, 6 and dispatch the accumulate kernel. -/
def ppnGroupOps (f : FilmState) (ip : Option ImagePipeline) (i : Nat) : Option (List HWOp) :=
  match enabledFor ip i with
  | none => none
  | some en =>
    if en then
      match f.channel_RADIANCE_PER_PIXEL_NORMALIZEDs[i]?, scaleFor ip i with
      | some ch, some sc =>
        some [HWOp.enqueueWrite BufId.mergeBuffer false ch.size (HostLoc.radiancePerPixelChannel i),
              HWOp.setKernelArg KernelId.mergeRADIANCE_PER_PIXEL_NORMALIZEDKernel 4 sc.c0,
              HWOp.setKernelArg KernelId.mergeRADIANCE_PER_PIXEL_NORMALIZEDKernel 5 sc.c1,
              HWOp.setKernelArg KernelId.mergeRADIANCE_PER_PIXEL_NORMALIZEDKernel 6 sc.c2,
              HWOp.enqueueKernel KernelId.mergeRADIANCE_PER_PIXEL_NORMALIZEDKernel
                (roundUp f.pixelCount 256) 256]
      | _, _ => none
    else some []

/-- Loop body for group `i` of the `RADIANCE_PER_SCREEN_NORMALIZED` loop
(lines 297-313): as `ppnGroupOps` but the bound scale is
`factor * GetScale()`. -/
def psnGroupOps (f : FilmState) (ip : Option ImagePipeline) (i : Nat) : Option (List HWOp) :=
  match enabledFor ip i with
  | none => none
  | some en =>
    if en then
      match f.channel_RADIANCE_PER_SCREEN_NORMALIZEDs[i]?, scaleFor ip i with
      | some ch, some sc0 =>
        some (
          (fun sc =>
            [HWOp.enqueueWrite BufId.mergeBuffer false ch.size (HostLoc.radiancePerScreenChannel i),
             HWOp.setKernelArg KernelId.mergeRADIANCE_PER_SCREEN_NORMALIZEDKernel 4 sc.c0,
             HWOp.setKernelArg KernelId.mergeRADIANCE_PER_SCREEN_NORMALIZEDKernel 5 sc.c1,
             HWOp.setKernelArg KernelId.mergeRADIANCE_PER_SCREEN_NORMALIZEDKernel 6 sc.c2,
             HWOp.enqueueKernel KernelId.mergeRADIANCE_PER_SCREEN_NORMALIZEDKernel
               (roundUp f.pixelCount 256) 256])
          (smulSpectrum (perScreenFactor f.pixelCount f.perScreenSampleCount) sc0))
      | _, _ => none
    else some []

/-- Sequential `for (u_int i = 0; ...)` loop: concatenate the per-group
operation lists, failing if any body faults. -/
def groupLoop (body : Nat → Option (List HWOp)) : List Nat → Option (List HWOp)
  | [] => some []
  | i :: rest =>
    match body i, groupLoop body rest with
    | some a, some b => some (a ++ b)
    | _, _ => none

/-- `Film::MergeSampleBuffersHW(imagePipelineIndex)` (lines 261-326) as the
trace of hardware-device calls it performs: upload of the target
image-pipeline channel, initialize dispatch, the two per-group loops, the
finalize dispatch, the download of the image-pipeline buffer and the final
blocking `FinishQueue`.  Any out-of-bounds host-vector access gives `none`. -/
def Film.MergeSampleBuffersHW (f : FilmState) (imagePipelineIndex : Nat) : Option (List HWOp) :=
  match f.channel_IMAGEPIPELINEs[imagePipelineIndex]? with
  | none => none
  | some ch =>
    let ip : Option ImagePipeline := f.imagePipelines[imagePipelineIndex]?
    match
      (if f.hasRadiancePerPixelNormalized then
        groupLoop (ppnGroupOps f ip) (List.range f.radianceGroupCount)
      else some []),
      (if f.hasRadiancePerScreenNormalized then
        groupLoop (psnGroupOps f ip) (List.range f.radianceGroupCount)
      else some []) with
    | some ppnOps, some psnOps =>
      some (HWOp.enqueueWrite BufId.IMAGEPIPELINE false ch.size
              (HostLoc.imagePipelineChannel imagePipelineIndex)
        :: HWOp.enqueueKernel KernelId.mergeInitializeKernel (roundUp f.pixelCount 256) 256
        :: (ppnOps ++ psnOps ++
            [HWOp.enqueueKernel KernelId.mergeFinalizeKernel (roundUp f.pixelCount 256) 256,
             HWOp.enqueueRead BufId.IMAGEPIPELINE false ch.size
               (HostLoc.imagePipelineChannel imagePipelineIndex),
             HWOp.finishQueue]))
    | _, _ => none

/-- Well-formedness of the film state as established by the film setup
code outside this translation unit: each per-group radiance channel list
covers every group index (when that channel kind is present), and every
image pipeline carries one scale entry per radiance group. -/
def WellFormed (f : FilmState) : Prop :=
  (f.hasRadiancePerPixelNormalized = true →
    f.radianceGroupCount ≤ f.channel_RADIANCE_PER_PIXEL_NORMALIZEDs.length) ∧
  (f.hasRadiancePerScreenNormalized = true →
    f.radianceGroupCount ≤ f.channel_RADIANCE_PER_SCREEN_NORMALIZEDs.length) ∧
  (∀ ip ∈ f.imagePipelines, f.radianceGroupCount ≤ ip.radianceChannelScales.length)

instance (f : FilmState) : Decidable (WellFormed f) := by
  unfold WellFormed
  infer_instance

/-- Total version of the enable test, defined when the scale table covers
the group index. -/
def enabledD (ip : Option ImagePipeline) (i : Nat) : Bool :=
  match ip with
  | none => true
  | some p => ((p.radianceChannelScales[i]?).map RadianceChannelScale.enabled).getD false

/-- Total version of the group scale lookup. -/
def scaleD (ip : Option ImagePipeline) (i : Nat) : Spectrum :=
  match ip with
  | none => unitSpectrum
  | some p => ((p.radianceChannelScales[i]?).map RadianceChannelScale.scale).getD unitSpectrum

/-- Byte size of per-pixel-normalized group channel `i` (0 when absent). -/
def ppnSizeD (f : FilmState) (i : Nat) : Nat :=
  ((f.channel_RADIANCE_PER_PIXEL_NORMALIZEDs[i]?).map Channel.size).getD 0

/-- Byte size of per-screen-normalized group channel `i` (0 when absent). -/
def psnSizeD (f : FilmState) (i : Nat) : Nat :=
  ((f.channel_RADIANCE_PER_SCREEN_NORMALIZEDs[i]?).map Channel.size).getD 0

/-- Byte size of image-pipeline channel `i` (0 when absent). -/
def ipSizeD (f : FilmState) (i : Nat) : Nat :=
  ((f.channel_IMAGEPIPELINEs[i]?).map Channel.size).getD 0

/-- The five device calls issued for one enabled group of the
per-pixel-normalized loop. -/
def ppnBlockD (f : FilmState) (ip : Option ImagePipeline) (i : Nat) : List HWOp :=
  [HWOp.enqueueWrite BufId.mergeBuffer false (ppnSizeD f i) (HostLoc.radiancePerPixelChannel i),
   HWOp.setKernelArg KernelId.mergeRADIANCE_PER_PIXEL_NORMALIZEDKernel 4 (scaleD ip i).c0,
   HWOp.setKernelArg KernelId.mergeRADIANCE_PER_PIXEL_NORMALIZEDKernel 5 (scaleD ip i).c1,
   HWOp.setKernelArg KernelId.mergeRADIANCE_PER_PIXEL_NORMALIZEDKernel 6 (scaleD ip i).c2,
   HWOp.enqueueKernel KernelId.mergeRADIANCE_PER_PIXEL_NORMALIZEDKernel
     (roundUp f.pixelCount 256) 256]

/-- The scale bound for one group of the per-screen-normalized loop:
`factor * GetScale()`. -/
def psnScaleD (f : FilmState) (ip : Option ImagePipeline) (i : Nat) : Spectrum :=
  smulSpectrum (perScreenFactor f.pixelCount f.perScreenSampleCount) (scaleD ip i)

/-- The five device calls issued for one enabled group of the
per-screen-normalized loop. -/
def psnBlockD (f : FilmState) (ip : Option ImagePipeline) (i : Nat) : List HWOp :=
  [HWOp.enqueueWrite BufId.mergeBuffer false (psnSizeD f i) (HostLoc.radiancePerScreenChannel i),
   HWOp.setKernelArg KernelId.mergeRADIANCE_PER_SCREEN_NORMALIZEDKernel 4 (psnScaleD f ip i).c0,
   HWOp.setKernelArg KernelId.mergeRADIANCE_PER_SCREEN_NORMALIZEDKernel 5 (psnScaleD f ip i).c1,
   HWOp.setKernelArg KernelId.mergeRADIANCE_PER_SCREEN_NORMALIZEDKernel 6 (psnScaleD f ip i).c2,
   HWOp.enqueueKernel KernelId.mergeRADIANCE_PER_SCREEN_NORMALIZEDKernel
     (roundUp f.pixelCount 256) 256]

/-- Concatenation of the per-group blocks over a list of group indices. -/
def blocksOf (blk : Nat → List HWOp) : List Nat → List HWOp
  | [] => []
  | i :: rest => blk i ++ blocksOf blk rest

/-- The group indices whose accumulation runs: all groups when the
pipeline pointer is null, the enabled ones otherwise. -/
def enabledGroups (f : FilmState) (ip : Option ImagePipeline) : List Nat :=
  (List.range f.radianceGroupCount).filter (enabledD ip)

/-- Closed form of the trace `Film::MergeSampleBuffersHW` produces on a
well-formed film with an in-range channel index. -/
def mergeTraceD (f : FilmState) (idx : Nat) : List HWOp :=
  HWOp.enqueueWrite BufId.IMAGEPIPELINE false (ipSizeD f idx) (HostLoc.imagePipelineChannel idx)
  :: HWOp.enqueueKernel KernelId.mergeInitializeKernel (roundUp f.pixelCount 256) 256
  :: ((if f.hasRadiancePerPixelNormalized then
        blocksOf (ppnBlockD f (f.imagePipelines[idx]?)) (enabledGroups f (f.imagePipelines[idx]?))
      else []) ++
      (if f.hasRadiancePerScreenNormalized then
        blocksOf (psnBlockD f (f.imagePipelines[idx]?)) (enabledGroups f (f.imagePipelines[idx]?))
      else []) ++
      [HWOp.enqueueKernel KernelId.mergeFinalizeKernel (roundUp f.pixelCount 256) 256,
       HWOp.enqueueRead BufId.IMAGEPIPELINE false (ipSizeD f idx) (HostLoc.imagePipelineChannel idx),
       HWOp.finishQueue])

/-- The mutable device-side bindings `Film::MergeSampleBuffersHW` relies
on: the scale argument slots 4, 5, 6 of the two accumulate kernels (left
unbound by `Film::CompileHWKernels`, comment "Scale RGB arguments are set
at runtime") and the host channel most recently uploaded into the merge
scratch buffer. -/
structure ArgState where
  ppn4 : Option ℚ
  ppn5 : Option ℚ
  ppn6 : Option ℚ
  psn4 : Option ℚ
  psn5 : Option ℚ
  psn6 : Option ℚ
  mergeSrc : Option HostLoc
deriving DecidableEq

/-- The binding state right after `Film::CompileHWKernels`: no scale slot
bound, nothing uploaded into the scratch buffer yet. -/
def initialArgState : ArgState := ⟨none, none, none, none, none, none, none⟩

/-- Effect of one device call on the mutable bindings. -/
def stepArg (st : ArgState) : HWOp → ArgState
  | HWOp.setKernelArg KernelId.mergeRADIANCE_PER_PIXEL_NORMALIZEDKernel 4 v =>
    { st with ppn4 := some v }
  | HWOp.setKernelArg KernelId.mergeRADIANCE_PER_PIXEL_NORMALIZEDKernel 5 v =>
    { st with ppn5 := some v }
  | HWOp.setKernelArg KernelId.mergeRADIANCE_PER_PIXEL_NORMALIZEDKernel 6 v =>
    { st with ppn6 := some v }
  | HWOp.setKernelArg KernelId.mergeRADIANCE_PER_SCREEN_NORMALIZEDKernel 4 v =>
    { st with psn4 := some v }
  | HWOp.setKernelArg KernelId.mergeRADIANCE_PER_SCREEN_NORMALIZEDKernel 5 v =>
    { st with psn5 := some v }
  | HWOp.setKernelArg KernelId.mergeRADIANCE_PER_SCREEN_NORMALIZEDKernel 6 v =>
    { st with psn6 := some v }
  | HWOp.enqueueWrite BufId.mergeBuffer _ _ src => { st with mergeSrc := some src }
  | _ => st

/-- What one accumulate-kernel dispatch observes at the moment it is
enqueued: which kernel, which host channel the scratch buffer currently
holds, and the values bound in scale slots 4, 5, 6. -/
structure DispatchRecord where
  kernel : KernelId
  mergeSrc : Option HostLoc
  arg4 : Option ℚ
  arg5 : Option ℚ
  arg6 : Option ℚ
deriving DecidableEq

/-- The record produced by one trace operation, if it is an accumulate
dispatch. -/
def recordOf (st : ArgState) : HWOp → Option DispatchRecord
  | HWOp.enqueueKernel KernelId.mergeRADIANCE_PER_PIXEL_NORMALIZEDKernel _ _ =>
    some ⟨KernelId.mergeRADIANCE_PER_PIXEL_NORMALIZEDKernel, st.mergeSrc, st.ppn4, st.ppn5, st.ppn6⟩
  | HWOp.enqueueKernel KernelId.mergeRADIANCE_PER_SCREEN_NORMALIZEDKernel _ _ =>
    some ⟨KernelId.mergeRADIANCE_PER_SCREEN_NORMALIZEDKernel, st.mergeSrc, st.psn4, st.psn5, st.psn6⟩
  | _ => none

/-- Fold the trace, collecting what every accumulate dispatch observes. -/
def dispatchRecords : ArgState → List HWOp → List DispatchRecord
  | _, [] => []
  | st, op :: rest => (recordOf st op).toList ++ dispatchRecords (stepArg st op) rest

/-- What a per-pixel-normalized group dispatch must observe: its own group
channel in the scratch buffer and its own scale in slots 4, 5, 6. -/
def ppnRecordD (ip : Option ImagePipeline) (i : Nat) : DispatchRecord :=
  ⟨KernelId.mergeRADIANCE_PER_PIXEL_NORMALIZEDKernel, some (HostLoc.radiancePerPixelChannel i),
   some (scaleD ip i).c0, some (scaleD ip i).c1, some (scaleD ip i).c2⟩

/-- What a per-screen-normalized group dispatch must observe. -/
def psnRecordD (f : FilmState) (ip : Option ImagePipeline) (i : Nat) : DispatchRecord :=
  ⟨KernelId.mergeRADIANCE_PER_SCREEN_NORMALIZEDKernel, some (HostLoc.radiancePerScreenChannel i),
   some (psnScaleD f ip i).c0, some (psnScaleD f ip i).c1, some (psnScaleD f ip i).c2⟩

/-- Binding state at the end of one per-pixel-normalized group block. -/
def afterPpnBlock (ip : Option ImagePipeline) (i : Nat) (st : ArgState) : ArgState :=
  { st with
    ppn4 := some (scaleD ip i).c0
    ppn5 := some (scaleD ip i).c1
    ppn6 := some (scaleD ip i).c2
    mergeSrc := some (HostLoc.radiancePerPixelChannel i) }

/-- Binding state at the end of one per-screen-normalized group block. -/
def afterPsnBlock (f : FilmState) (ip : Option ImagePipeline) (i : Nat) (st : ArgState) : ArgState :=
  { st with
    psn4 := some (psnScaleD f ip i).c0
    psn5 := some (psnScaleD f ip i).c1
    psn6 := some (psnScaleD f ip i).c2
    mergeSrc := some (HostLoc.radiancePerScreenChannel i) }

/-- Replace the pixel storage of the channel at position `i`, leaving the
list unchanged when the position is out of range. -/
def setPixelsAt (l : List Channel) (i : Nat) (v : List ℚ) : List Channel :=
  match l[i]? with
  | some ch => l.set i { ch with pixels := v }
  | none => l

/-- Host-memory effect of a device-to-host transfer into `dst`. -/
def hostWrite (f : FilmState) (dst : HostLoc) (v : List ℚ) : FilmState :=
  match dst with
  | HostLoc.imagePipelineChannel i =>
    { f with channel_IMAGEPIPELINEs := setPixelsAt f.channel_IMAGEPIPELINEs i v }
  | HostLoc.radiancePerPixelChannel i =>
    { f with channel_RADIANCE_PER_PIXEL_NORMALIZEDs :=
        setPixelsAt f.channel_RADIANCE_PER_PIXEL_NORMALIZEDs i v }
  | HostLoc.radiancePerScreenChannel i =>
    { f with channel_RADIANCE_PER_SCREEN_NORMALIZEDs :=
        setPixelsAt f.channel_RADIANCE_PER_SCREEN_NORMALIZEDs i v }
  | HostLoc.alphaChannel => { f with channel_ALPHA := { f.channel_ALPHA with pixels := v } }
  | HostLoc.objectIdChannel => { f with channel_OBJECT_ID := { f.channel_OBJECT_ID with pixels := v } }

/-- Host-memory effect of a trace: only `EnqueueReadBuffer` operations
write host memory; `dev` gives the device buffer contents each read
transfers back. -/
def applyTraceHost (dev : BufId → List ℚ) : List HWOp → FilmState → FilmState
  | [], f => f
  | HWOp.enqueueRead buf _ _ dst :: rest, f =>
    applyTraceHost dev rest (hostWrite f dst (dev buf))
  | _ :: rest, f => applyTraceHost dev rest f

/-- Whether an operation is a device-to-host transfer. -/
def isEnqueueRead : HWOp → Bool
  | HWOp.enqueueRead _ _ _ _ => true
  | _ => false

/-- One buffer allocation call of `Film::AllocateHWBuffers`:
`AllocBufferRW`/`AllocBufferRO` with the host source pointer (`none`
models the `nullptr` passed for the merge scratch buffer) and the byte
size. -/
inductive AllocOp where
  | allocBufferRW (buf : BufId) (src : Option HostLoc) (size : Nat)
  | allocBufferRO (buf : BufId) (src : Option HostLoc) (size : Nat)
deriving DecidableEq

/-- The merge scratch buffer size computed at lines 151-153:
`Max(HasChannel(PPN) ? channel[0]->GetSize() : 0, HasChannel(PSN) ? channel[0]->GetSize() : 0)`. -/
def mergeBufferSizeOf (f : FilmState) : Nat :=
  max (if f.hasRadiancePerPixelNormalized then ppnSizeD f 0 else 0)
    (if f.hasRadiancePerScreenNormalized then psnSizeD f 0 else 0)

/-- `Film::AllocateHWBuffers` (lines 143-158) as the list of allocation
calls it performs: the image-pipeline buffer always (from channel 0), the
alpha and object-id buffers under their `HasChannel` guards, and the merge
scratch buffer (with a null host pointer) only when its computed size is
positive.  `none` models the out-of-bounds `channel[0]` access on an empty
channel vector. -/
def Film.AllocateHWBuffers (f : FilmState) : Option (List AllocOp) :=
  match f.channel_IMAGEPIPELINEs[0]? with
  | none => none
  | some ch0 =>
    match
      (if f.hasRadiancePerPixelNormalized then
        (f.channel_RADIANCE_PER_PIXEL_NORMALIZEDs[0]?).map Channel.size
      else some 0),
      (if f.hasRadiancePerScreenNormalized then
        (f.channel_RADIANCE_PER_SCREEN_NORMALIZEDs[0]?).map Channel.size
      else some 0) with
    | some ppnSz, some psnSz =>
      some ([AllocOp.allocBufferRW BufId.IMAGEPIPELINE (some (HostLoc.imagePipelineChannel 0)) ch0.size]
        ++ (if f.hasAlpha then
              [AllocOp.allocBufferRO BufId.ALPHA (some HostLoc.alphaChannel) f.channel_ALPHA.size]
            else [])
        ++ (if f.hasObjectID then
              [AllocOp.allocBufferRO BufId.OBJECT_ID (some HostLoc.objectIdChannel)
                f.channel_OBJECT_ID.size]
            else [])
        ++ (if 0 < max ppnSz psnSz then
              [AllocOp.allocBufferRO BufId.mergeBuffer none (max ppnSz psnSz)]
            else []))
    | _, _ => none

/-- Handle state of the film's hardware members: `true` means the pointer
or buffer handle is non-null / allocated. -/
structure HWHandleState where
  hwEnable : Bool
  hwDeviceIndex : Int
  ctx : Bool
  dataSet : Bool
  hardwareDevice : Bool
  hw_IMAGEPIPELINE : Bool
  hw_ALPHA : Bool
  hw_OBJECT_ID : Bool
  hw_mergeBuffer : Bool
  mergeInitializeKernel : Bool
  mergeRADIANCE_PER_PIXEL_NORMALIZEDKernel : Bool
  mergeRADIANCE_PER_SCREEN_NORMALIZEDKernel : Bool
  mergeFinalizeKernel : Bool
deriving DecidableEq

/-- `Film::SetUpHW` (lines 34-52): hardware merging enabled, no pinned
device, every handle null. -/
def Film.SetUpHW : HWHandleState :=
  { hwEnable := true
    hwDeviceIndex := -1
    ctx := false
    dataSet := false
    hardwareDevice := false
    hw_IMAGEPIPELINE := false
    hw_ALPHA := false
    hw_OBJECT_ID := false
    hw_mergeBuffer := false
    mergeInitializeKernel := false
    mergeRADIANCE_PER_PIXEL_NORMALIZEDKernel := false
    mergeRADIANCE_PER_SCREEN_NORMALIZEDKernel := false
    mergeFinalizeKernel := false }

/-- The handle state after a successful build: device selected, context
started, all four kernels compiled and all four buffers allocated. -/
def fullyBuiltHWState : HWHandleState :=
  { hwEnable := true
    hwDeviceIndex := -1
    ctx := true
    dataSet := true
    hardwareDevice := true
    hw_IMAGEPIPELINE := true
    hw_ALPHA := true
    hw_OBJECT_ID := true
    hw_mergeBuffer := true
    mergeInitializeKernel := true
    mergeRADIANCE_PER_PIXEL_NORMALIZEDKernel := true
    mergeRADIANCE_PER_SCREEN_NORMALIZEDKernel := true
    mergeFinalizeKernel := true }

/-- One observable teardown action of `Film::DeleteHWContext`. -/
inductive TeardownOp where
  | deleteKernelOp (k : KernelId)
  | freeBufferOp (b : BufId)
  | deleteContextOp
  | deleteDataSetOp
deriving DecidableEq

/-- `Film::DeleteHWContext` (lines 122-141) as the list of observable
teardown actions: under the `if (hardwareDevice)` guard the four kernels
are deleted and the four buffers freed, then the context and the dataset
are destroyed.  A C++ `delete` of a null pointer and a `FreeBuffer` of a
null handle are no-ops, so an action is emitted only when the
corresponding handle is non-null. -/
def Film.DeleteHWContext (st : HWHandleState) : List TeardownOp :=
  (if st.hardwareDevice then
    (if st.mergeInitializeKernel then
      [TeardownOp.deleteKernelOp KernelId.mergeInitializeKernel] else [])
    ++ (if st.mergeRADIANCE_PER_PIXEL_NORMALIZEDKernel then
      [TeardownOp.deleteKernelOp KernelId.mergeRADIANCE_PER_PIXEL_NORMALIZEDKernel] else [])
    ++ (if st.mergeRADIANCE_PER_SCREEN_NORMALIZEDKernel then
      [TeardownOp.deleteKernelOp KernelId.mergeRADIANCE_PER_SCREEN_NORMALIZEDKernel] else [])
    ++ (if st.mergeFinalizeKernel then
      [TeardownOp.deleteKernelOp KernelId.mergeFinalizeKernel] else [])
    ++ (if st.hw_IMAGEPIPELINE then [TeardownOp.freeBufferOp BufId.IMAGEPIPELINE] else [])
    ++ (if st.hw_ALPHA then [TeardownOp.freeBufferOp BufId.ALPHA] else [])
    ++ (if st.hw_OBJECT_ID then [TeardownOp.freeBufferOp BufId.OBJECT_ID] else [])
    ++ (if st.hw_mergeBuffer then [TeardownOp.freeBufferOp BufId.mergeBuffer] else [])
  else [])
  ++ (if st.ctx then [TeardownOp.deleteContextOp] else [])
  ++ (if st.dataSet then [TeardownOp.deleteDataSetOp] else [])

/-- Example film: one image pipeline with one enabled group scaled by
(2, 3, 4), both radiance channel kinds present, 16 pixels, per-screen
sample count 2, alpha present, object-id absent. -/
def exFilm : FilmState :=
  { imagePipelines := [⟨[⟨true, ⟨2, 3, 4⟩⟩]⟩]
    channel_IMAGEPIPELINEs := [⟨48, [5, 6, 7]⟩]
    hasRadiancePerPixelNormalized := true
    hasRadiancePerScreenNormalized := true
    channel_RADIANCE_PER_PIXEL_NORMALIZEDs := [⟨64, [1]⟩]
    channel_RADIANCE_PER_SCREEN_NORMALIZEDs := [⟨64, [2]⟩]
    radianceGroupCount := 1
    pixelCount := 16
    perScreenSampleCount := 2
    hasAlpha := true
    hasObjectID := false
    channel_ALPHA := ⟨16, [9]⟩
    channel_OBJECT_ID := ⟨0, []⟩
    width := 4
    height := 4 }

/-- `exFilm` with a zero per-screen-normalized sample count, exercising
the divide-by-zero guard. -/
def exFilmZeroSamples : FilmState :=
  { exFilm with perScreenSampleCount := 0 }

/-- Film with an empty image-pipeline list (so every index is out of
range for the scale lookup) but a valid image-pipeline channel, a
per-screen-normalized channel, 16 pixels and sample count 2, making the
normalization factor 8. -/
def exFilmNeutral : FilmState :=
  { imagePipelines := []
    channel_IMAGEPIPELINEs := [⟨48, []⟩]
    hasRadiancePerPixelNormalized := false
    hasRadiancePerScreenNormalized := true
    channel_RADIANCE_PER_PIXEL_NORMALIZEDs := []
    channel_RADIANCE_PER_SCREEN_NORMALIZEDs := [⟨64, []⟩]
    radianceGroupCount := 1
    pixelCount := 16
    perScreenSampleCount := 2
    hasAlpha := false
    hasObjectID := false
    channel_ALPHA := ⟨0, []⟩
    channel_OBJECT_ID := ⟨0, []⟩
    width := 4
    height := 4 }

/-- Whether a device call is an operation placed on the device queue
(transfers, kernel dispatches, the final drain), as opposed to a kernel
argument binding. -/
def isQueueOp : HWOp → Bool
  | HWOp.setKernelArg _ _ _ => false
  | _ => true

/-- The queue operations of a trace, in order. -/
def enqueuedOps (tr : List HWOp) : List HWOp := tr.filter isQueueOp

/-- The two queue operations of one per-pixel-normalized group: its
channel upload and its accumulate dispatch. -/
def ppnQueuePairD (f : FilmState) (i : Nat) : List HWOp :=
  [HWOp.enqueueWrite BufId.mergeBuffer false (ppnSizeD f i) (HostLoc.radiancePerPixelChannel i),
   HWOp.enqueueKernel KernelId.mergeRADIANCE_PER_PIXEL_NORMALIZEDKernel
     (roundUp f.pixelCount 256) 256]

/-- The two queue operations of one per-screen-normalized group. -/
def psnQueuePairD (f : FilmState) (i : Nat) : List HWOp :=
  [HWOp.enqueueWrite BufId.mergeBuffer false (psnSizeD f i) (HostLoc.radiancePerScreenChannel i),
   HWOp.enqueueKernel KernelId.mergeRADIANCE_PER_SCREEN_NORMALIZEDKernel
     (roundUp f.pixelCount 256) 256]

/-- Number of blocking queue drains (`FinishQueue` calls) in a trace. -/
def countFinish : List HWOp → Nat
  | [] => 0
  | HWOp.finishQueue :: rest => countFinish rest + 1
  | _ :: rest => countFinish rest

/-- Closed form of the allocation call list `Film::AllocateHWBuffers`
produces when every guarded channel lookup is in range. -/
def allocOpsD (f : FilmState) : List AllocOp :=
  [AllocOp.allocBufferRW BufId.IMAGEPIPELINE (some (HostLoc.imagePipelineChannel 0)) (ipSizeD f 0)]
  ++ (if f.hasAlpha then
        [AllocOp.allocBufferRO BufId.ALPHA (some HostLoc.alphaChannel) f.channel_ALPHA.size]
      else [])
  ++ (if f.hasObjectID then
        [AllocOp.allocBufferRO BufId.OBJECT_ID (some HostLoc.objectIdChannel)
          f.channel_OBJECT_ID.size]
      else [])
  ++ (if 0 < mergeBufferSizeOf f then
        [AllocOp.allocBufferRO BufId.mergeBuffer none (mergeBufferSizeOf f)]
      else [])

theorem selectHWDeviceLoop_eq (descs : List DeviceDescription) :
    ∀ sel, selectHWDeviceLoop descs sel =
      match descs.find? (fun d => d.devType = DeviceType.DEVICE_TYPE_CUDA_GPU) with
      | some d => some d
      | none =>
        match lastOpenCLGPU descs with
        | some d => some d
        | none => sel := by
  induction descs with
  | nil => intro sel; rfl
  | cons d rest ih =>
    intro sel
    by_cases hc : d.devType = DeviceType.DEVICE_TYPE_CUDA_GPU
    · simp [selectHWDeviceLoop, hc, List.find?_cons, lastOpenCLGPU]
    · by_cases ho : d.devType = DeviceType.DEVICE_TYPE_OPENCL_GPU
      · simp only [selectHWDeviceLoop, if_neg hc, if_pos ho, ih, List.find?_cons, lastOpenCLGPU]
        simp only [hc, decide_False, ho, decide_True]
        cases rest.find? (fun d => d.devType = DeviceType.DEVICE_TYPE_CUDA_GPU) with
        | some d2 => rfl
        | none =>
          cases lastOpenCLGPU rest with
          | some d2 => rfl
          | none => simp [ho]
      · simp only [selectHWDeviceLoop, if_neg hc, if_neg ho, ih, List.find?_cons, lastOpenCLGPU]
        simp only [hc, decide_False, ho]
        cases rest.find? (fun d => d.devType = DeviceType.DEVICE_TYPE_CUDA_GPU) with
        | some d2 => rfl
        | none =>
          cases lastOpenCLGPU rest with
          | some d2 => rfl
          | none => simp [ho]

/-- C1 (counterexample): with hardware enabled, no pinned index, and a
filtered list of two distinct OpenCL GPUs and no CUDA device, the code
selects the SECOND (last-seen) OpenCL GPU while the claimed policy selects
the first-seen one, so the claim as stated is false. -/
theorem Film.CreateHWContextSelect_counterexample :
    Film.CreateHWContextSelect true (-1)
        [⟨0, DeviceType.DEVICE_TYPE_OPENCL_GPU⟩, ⟨1, DeviceType.DEVICE_TYPE_OPENCL_GPU⟩] =
      some ⟨1, DeviceType.DEVICE_TYPE_OPENCL_GPU⟩ ∧
    Film.CreateHWContextSelectClaimed true (-1)
        [⟨0, DeviceType.DEVICE_TYPE_OPENCL_GPU⟩, ⟨1, DeviceType.DEVICE_TYPE_OPENCL_GPU⟩] =
      some ⟨0, DeviceType.DEVICE_TYPE_OPENCL_GPU⟩ ∧
    Film.CreateHWContextSelect true (-1)
        [⟨0, DeviceType.DEVICE_TYPE_OPENCL_GPU⟩, ⟨1, DeviceType.DEVICE_TYPE_OPENCL_GPU⟩] ≠
      Film.CreateHWContextSelectClaimed true (-1)
        [⟨0, DeviceType.DEVICE_TYPE_OPENCL_GPU⟩, ⟨1, DeviceType.DEVICE_TYPE_OPENCL_GPU⟩] := by
  refine ⟨by decide, by decide, by decide⟩

/-- C1 (amended): a pinned in-range index is honored unconditionally;
otherwise the first CUDA GPU encountered wins immediately; otherwise the
LAST-seen OpenCL GPU is selected (the scan overwrites its candidate at
every OpenCL GPU it passes); otherwise no device is selected. -/
theorem Film.CreateHWContextSelect_policy (hwEnable : Bool) (hwDeviceIndex : Int)
    (descs : List DeviceDescription) :
    Film.CreateHWContextSelect hwEnable hwDeviceIndex descs =
      Film.CreateHWContextSelectAmended hwEnable hwDeviceIndex descs := by
  unfold Film.CreateHWContextSelect Film.CreateHWContextSelectAmended
  cases hwEnable with
  | false => rfl
  | true =>
    simp only [if_true]
    by_cases hpin : 0 ≤ hwDeviceIndex ∧ hwDeviceIndex < (descs.length : Int)
    · simp [hpin]
    · simp only [if_neg hpin]
      by_cases hlen : 0 < descs.length
      · simp only [if_pos hlen, selectHWDeviceLoop_eq]
      · have hnil : descs = [] := by
          cases descs with
          | nil => rfl
          | cons d rest => simp at hlen
        subst hnil
        rfl

theorem ppnGroupOps_eq (f : FilmState) (ip : Option ImagePipeline) (i : Nat)
    (hsc : ∀ p, ip = some p → i < p.radianceChannelScales.length)
    (hch : i < f.channel_RADIANCE_PER_PIXEL_NORMALIZEDs.length) :
    ppnGroupOps f ip i = some (if enabledD ip i then ppnBlockD f ip i else []) := by
  cases ip with
  | none =>
    simp [ppnGroupOps, enabledFor, enabledD, scaleFor, scaleD, ppnBlockD, ppnSizeD,
      List.getElem?_eq_getElem hch]
  | some p =>
    have hi : i < p.radianceChannelScales.length := hsc p rfl
    simp only [ppnGroupOps, enabledFor, enabledD, scaleFor, scaleD, ppnBlockD, ppnSizeD,
      List.getElem?_eq_getElem hi, List.getElem?_eq_getElem hch, Option.map_some',
      Option.getD_some]
    split <;> rfl

theorem psnGroupOps_eq (f : FilmState) (ip : Option ImagePipeline) (i : Nat)
    (hsc : ∀ p, ip = some p → i < p.radianceChannelScales.length)
    (hch : i < f.channel_RADIANCE_PER_SCREEN_NORMALIZEDs.length) :
    psnGroupOps f ip i = some (if enabledD ip i then psnBlockD f ip i else []) := by
  cases ip with
  | none =>
    simp [psnGroupOps, enabledFor, enabledD, scaleFor, scaleD, psnBlockD, psnSizeD, psnScaleD,
      List.getElem?_eq_getElem hch]
  | some p =>
    have hi : i < p.radianceChannelScales.length := hsc p rfl
    simp only [psnGroupOps, enabledFor, enabledD, scaleFor, scaleD, psnBlockD, psnSizeD, psnScaleD,
      List.getElem?_eq_getElem hi, List.getElem?_eq_getElem hch, Option.map_some',
      Option.getD_some]
    split <;> rfl

theorem groupLoop_eq_blocksOf (body : Nat → Option (List HWOp)) (p : Nat → Bool)
    (blk : Nat → List HWOp) :
    ∀ l : List Nat, (∀ i ∈ l, body i = some (if p i then blk i else [])) →
      groupLoop body l = some (blocksOf blk (l.filter p)) := by
  intro l
  induction l with
  | nil => intro _; rfl
  | cons i rest ih =>
    intro h
    have hi := h i (List.mem_cons_self i rest)
    have hrest := ih (fun j hj => h j (List.mem_cons_of_mem i hj))
    by_cases hp : p i = true
    · simp [groupLoop, hi, hrest, hp, List.filter_cons, blocksOf]
    · simp only [Bool.not_eq_true] at hp
      simp [groupLoop, hi, hrest, hp, List.filter_cons, blocksOf]

/-- Master characterization: on a well-formed film with an in-range
image-pipeline channel index the merge succeeds and produces exactly the
closed-form trace. -/
theorem Film.MergeSampleBuffersHW_eq (f : FilmState) (idx : Nat)
    (hwf : WellFormed f) (hidx : idx < f.channel_IMAGEPIPELINEs.length) :
    Film.MergeSampleBuffersHW f idx = some (mergeTraceD f idx) := by
  obtain ⟨hwp, hws, hsc⟩ := hwf
  have hscales : ∀ i ∈ List.range f.radianceGroupCount,
      ∀ p, f.imagePipelines[idx]? = some p → i < p.radianceChannelScales.length := by
    intro i hi p hp
    have hmem : p ∈ f.imagePipelines := by
      obtain ⟨h, rfl⟩ := List.getElem?_eq_some.mp hp
      exact List.getElem_mem h
    exact lt_of_lt_of_le (List.mem_range.mp hi) (hsc p hmem)
  have hppn : (if f.hasRadiancePerPixelNormalized then
      groupLoop (ppnGroupOps f (f.imagePipelines[idx]?)) (List.range f.radianceGroupCount)
    else some []) = some (if f.hasRadiancePerPixelNormalized then
      blocksOf (ppnBlockD f (f.imagePipelines[idx]?)) (enabledGroups f (f.imagePipelines[idx]?))
    else []) := by
    by_cases hp : f.hasRadiancePerPixelNormalized = true
    · simp only [hp, if_true]
      exact groupLoop_eq_blocksOf _ _ _ _ (fun i hi =>
        ppnGroupOps_eq f _ i (hscales i hi)
          (lt_of_lt_of_le (List.mem_range.mp hi) (hwp hp)))
    · simp only [Bool.not_eq_true] at hp
      simp [hp]
  have hpsn : (if f.hasRadiancePerScreenNormalized then
      groupLoop (psnGroupOps f (f.imagePipelines[idx]?)) (List.range f.radianceGroupCount)
    else some []) = some (if f.hasRadiancePerScreenNormalized then
      blocksOf (psnBlockD f (f.imagePipelines[idx]?)) (enabledGroups f (f.imagePipelines[idx]?))
    else []) := by
    by_cases hp : f.hasRadiancePerScreenNormalized = true
    · simp only [hp, if_true]
      exact groupLoop_eq_blocksOf _ _ _ _ (fun i hi =>
        psnGroupOps_eq f _ i (hscales i hi)
          (lt_of_lt_of_le (List.mem_range.mp hi) (hws hp)))
    · simp only [Bool.not_eq_true] at hp
      simp [hp]
  unfold Film.MergeSampleBuffersHW mergeTraceD
  rw [List.getElem?_eq_getElem hidx]
  simp only [hppn, hpsn, ipSizeD, List.getElem?_eq_getElem hidx, Option.map_some',
    Option.getD_some]

theorem dispatchRecords_ppnBlock (f : FilmState) (ip : Option ImagePipeline) (i : Nat)
    (st : ArgState) (rest : List HWOp) :
    dispatchRecords st (ppnBlockD f ip i ++ rest) =
      ppnRecordD ip i :: dispatchRecords (afterPpnBlock ip i st) rest := by
  rfl

theorem dispatchRecords_psnBlock (f : FilmState) (ip : Option ImagePipeline) (i : Nat)
    (st : ArgState) (rest : List HWOp) :
    dispatchRecords st (psnBlockD f ip i ++ rest) =
      psnRecordD f ip i :: dispatchRecords (afterPsnBlock f ip i st) rest := by
  rfl

/-- After the per-pixel-normalized blocks for the groups in `l`, the
collected records are one per group, independent of the starting binding
state. -/
theorem dispatchRecords_blocksOf_ppn (f : FilmState) (ip : Option ImagePipeline) :
    ∀ (l : List Nat) (st : ArgState) (rest : List HWOp),
      ∃ st2, dispatchRecords st (blocksOf (ppnBlockD f ip) l ++ rest) =
        l.map (ppnRecordD ip) ++ dispatchRecords st2 rest := by
  intro l
  induction l with
  | nil => intro st rest; exact ⟨st, rfl⟩
  | cons i restl ih =>
    intro st rest
    obtain ⟨st2, h2⟩ := ih (afterPpnBlock ip i st) rest
    refine ⟨st2, ?_⟩
    rw [blocksOf, List.append_assoc, dispatchRecords_ppnBlock, h2, List.map_cons,
      List.cons_append]

theorem dispatchRecords_blocksOf_psn (f : FilmState) (ip : Option ImagePipeline) :
    ∀ (l : List Nat) (st : ArgState) (rest : List HWOp),
      ∃ st2, dispatchRecords st (blocksOf (psnBlockD f ip) l ++ rest) =
        l.map (psnRecordD f ip) ++ dispatchRecords st2 rest := by
  intro l
  induction l with
  | nil => intro st rest; exact ⟨st, rfl⟩
  | cons i restl ih =>
    intro st rest
    obtain ⟨st2, h2⟩ := ih (afterPsnBlock f ip i st) rest
    refine ⟨st2, ?_⟩
    rw [blocksOf, List.append_assoc, dispatchRecords_psnBlock, h2, List.map_cons,
      List.cons_append]

theorem dispatchRecords_tail (st : ArgState) (f : FilmState) (idx : Nat) :
    dispatchRecords st
      [HWOp.enqueueKernel KernelId.mergeFinalizeKernel (roundUp f.pixelCount 256) 256,
       HWOp.enqueueRead BufId.IMAGEPIPELINE false (ipSizeD f idx) (HostLoc.imagePipelineChannel idx),
       HWOp.finishQueue] = [] := by
  rfl

/-- What the accumulate dispatches of one merge call observe, as a fold of
the mutable bindings over the trace: each enabled group's dispatch sees
exactly its own channel in the scratch buffer and its own scale in slots
4, 5, 6, first all per-pixel-normalized groups, then all
per-screen-normalized groups. -/
theorem dispatchRecords_mergeTraceD (f : FilmState) (idx : Nat) :
    dispatchRecords initialArgState (mergeTraceD f idx) =
      (if f.hasRadiancePerPixelNormalized then
        (enabledGroups f (f.imagePipelines[idx]?)).map (ppnRecordD (f.imagePipelines[idx]?))
      else []) ++
      (if f.hasRadiancePerScreenNormalized then
        (enabledGroups f (f.imagePipelines[idx]?)).map (psnRecordD f (f.imagePipelines[idx]?))
      else []) := by
  unfold mergeTraceD
  have hhead : ∀ rest, dispatchRecords initialArgState
      (HWOp.enqueueWrite BufId.IMAGEPIPELINE false (ipSizeD f idx)
          (HostLoc.imagePipelineChannel idx)
        :: HWOp.enqueueKernel KernelId.mergeInitializeKernel (roundUp f.pixelCount 256) 256
        :: rest) = dispatchRecords initialArgState rest := by
    intro rest; rfl
  rw [hhead]
  set ip := f.imagePipelines[idx]? with hip
  set gs := enabledGroups f ip with hgs
  set tailOps : List HWOp :=
    [HWOp.enqueueKernel KernelId.mergeFinalizeKernel (roundUp f.pixelCount 256) 256,
     HWOp.enqueueRead BufId.IMAGEPIPELINE false (ipSizeD f idx) (HostLoc.imagePipelineChannel idx),
     HWOp.finishQueue] with htail
  by_cases hp : f.hasRadiancePerPixelNormalized = true <;>
    by_cases hs : f.hasRadiancePerScreenNormalized = true
  · simp only [hp, hs, if_true]
    rw [List.append_assoc]
    obtain ⟨st2, h2⟩ := dispatchRecords_blocksOf_ppn f ip gs initialArgState
      (blocksOf (psnBlockD f ip) gs ++ tailOps)
    rw [h2]
    obtain ⟨st3, h3⟩ := dispatchRecords_blocksOf_psn f ip gs st2 tailOps
    rw [h3, htail, dispatchRecords_tail, List.append_nil]
  · simp only [Bool.not_eq_true] at hs
    simp only [hp, hs, if_true, Bool.false_eq_true, if_false, List.nil_append, List.append_nil]
    obtain ⟨st2, h2⟩ := dispatchRecords_blocksOf_ppn f ip gs initialArgState tailOps
    rw [h2, htail, dispatchRecords_tail, List.append_nil]
  · simp only [Bool.not_eq_true] at hp
    simp only [hp, hs, if_true, Bool.false_eq_true, if_false, List.nil_append]
    obtain ⟨st2, h2⟩ := dispatchRecords_blocksOf_psn f ip gs initialArgState tailOps
    rw [h2, htail, dispatchRecords_tail, List.append_nil]
  · simp only [Bool.not_eq_true] at hp hs
    simp only [hp, hs, Bool.false_eq_true, if_false, List.nil_append]
    rw [htail, dispatchRecords_tail]

theorem applyTraceHost_cons_not_read (dev : BufId → List ℚ) (op : HWOp)
    (h : isEnqueueRead op = false) (rest : List HWOp) (f : FilmState) :
    applyTraceHost dev (op :: rest) f = applyTraceHost dev rest f := by
  cases op with
  | enqueueRead buf b sz dst => simp [isEnqueueRead] at h
  | enqueueWrite buf b sz src => rfl
  | enqueueKernel k g w => rfl
  | setKernelArg k s v => rfl
  | finishQueue => rfl

theorem applyTraceHost_append_no_reads (dev : BufId → List ℚ) :
    ∀ (l : List HWOp), (∀ op ∈ l, isEnqueueRead op = false) →
      ∀ (rest : List HWOp) (f : FilmState),
        applyTraceHost dev (l ++ rest) f = applyTraceHost dev rest f := by
  intro l
  induction l with
  | nil => intro _ rest f; rfl
  | cons op l2 ih =>
    intro h rest f
    rw [List.cons_append,
      applyTraceHost_cons_not_read dev op (h op (List.mem_cons_self op l2)),
      ih (fun o ho => h o (List.mem_cons_of_mem op ho))]

/-- Any operation of a concatenation of per-group blocks belongs to one of
the blocks. -/
theorem mem_blocksOf {op : HWOp} {blk : Nat → List HWOp} :
    ∀ {l : List Nat}, op ∈ blocksOf blk l → ∃ i ∈ l, op ∈ blk i := by
  intro l
  induction l with
  | nil => intro h; simp [blocksOf] at h
  | cons i rest ih =>
    intro h
    rw [blocksOf, List.mem_append] at h
    cases h with
    | inl h => exact ⟨i, List.mem_cons_self i rest, h⟩
    | inr h =>
      obtain ⟨j, hj, hb⟩ := ih h
      exact ⟨j, List.mem_cons_of_mem i hj, hb⟩

theorem ppnBlockD_no_reads (f : FilmState) (ip : Option ImagePipeline) (i : Nat) :
    ∀ op ∈ ppnBlockD f ip i, isEnqueueRead op = false := by
  intro op hop
  simp only [ppnBlockD, List.mem_cons, List.mem_singleton, List.not_mem_nil, or_false] at hop
  rcases hop with h | h | h | h | h <;> subst h <;> rfl

theorem psnBlockD_no_reads (f : FilmState) (ip : Option ImagePipeline) (i : Nat) :
    ∀ op ∈ psnBlockD f ip i, isEnqueueRead op = false := by
  intro op hop
  simp only [psnBlockD, List.mem_cons, List.mem_singleton, List.not_mem_nil, or_false] at hop
  rcases hop with h | h | h | h | h <;> subst h <;> rfl

/-- Host-memory effect of one merge call: exactly one device-to-host
transfer runs, overwriting the pixels of image-pipeline channel `idx` with
the downloaded image-pipeline buffer. -/
theorem applyTraceHost_mergeTraceD (dev : BufId → List ℚ) (f : FilmState) (idx : Nat) :
    applyTraceHost dev (mergeTraceD f idx) f =
      hostWrite f (HostLoc.imagePipelineChannel idx) (dev BufId.IMAGEPIPELINE) := by
  unfold mergeTraceD
  have h1 : ∀ rest f2, applyTraceHost dev
      (HWOp.enqueueWrite BufId.IMAGEPIPELINE false (ipSizeD f idx)
          (HostLoc.imagePipelineChannel idx)
        :: HWOp.enqueueKernel KernelId.mergeInitializeKernel (roundUp f.pixelCount 256) 256
        :: rest) f2 = applyTraceHost dev rest f2 := by
    intro rest f2; rfl
  rw [h1]
  have hppn : ∀ op ∈ (if f.hasRadiancePerPixelNormalized then
      blocksOf (ppnBlockD f (f.imagePipelines[idx]?)) (enabledGroups f (f.imagePipelines[idx]?))
    else []), isEnqueueRead op = false := by
    split
    · intro op hop
      obtain ⟨i, _, hb⟩ := mem_blocksOf hop
      exact ppnBlockD_no_reads f _ i op hb
    · intro op hop; simp at hop
  have hpsn : ∀ op ∈ (if f.hasRadiancePerScreenNormalized then
      blocksOf (psnBlockD f (f.imagePipelines[idx]?)) (enabledGroups f (f.imagePipelines[idx]?))
    else []), isEnqueueRead op = false := by
    split
    · intro op hop
      obtain ⟨i, _, hb⟩ := mem_blocksOf hop
      exact psnBlockD_no_reads f _ i op hb
    · intro op hop; simp at hop
  rw [List.append_assoc, applyTraceHost_append_no_reads dev _ hppn,
    applyTraceHost_append_no_reads dev _ hpsn]
  rfl

/-- C2: when the per-screen-normalized channel exists the normalization
factor is pixel count over sample count for a positive sample count, and
exactly 1 for a zero sample count; the zero-sample case does not fault:
the whole merge call still produces a trace (`isSome`). -/
theorem mergePerScreenFactorGuard (f : FilmState) (idx : Nat)
    (hwf : WellFormed f) (hidx : idx < f.channel_IMAGEPIPELINEs.length) :
    (0 < f.perScreenSampleCount →
      perScreenFactor f.pixelCount f.perScreenSampleCount =
        (f.pixelCount : ℚ) / f.perScreenSampleCount) ∧
    (f.perScreenSampleCount = 0 →
      perScreenFactor f.pixelCount f.perScreenSampleCount = 1) ∧
    (Film.MergeSampleBuffersHW f idx).isSome = true := by
  refine ⟨fun h => by simp [perScreenFactor, h], fun h => by simp [perScreenFactor, h], ?_⟩
  rw [Film.MergeSampleBuffersHW_eq f idx hwf hidx]
  rfl

/-- Witness for C2 at a concrete film with sample count zero. -/
theorem mergePerScreenFactorGuard_witness :
    WellFormed exFilmZeroSamples ∧ 0 < exFilmZeroSamples.channel_IMAGEPIPELINEs.length ∧
    ((0 < exFilmZeroSamples.perScreenSampleCount →
      perScreenFactor exFilmZeroSamples.pixelCount exFilmZeroSamples.perScreenSampleCount =
        (exFilmZeroSamples.pixelCount : ℚ) / exFilmZeroSamples.perScreenSampleCount) ∧
    (exFilmZeroSamples.perScreenSampleCount = 0 →
      perScreenFactor exFilmZeroSamples.pixelCount exFilmZeroSamples.perScreenSampleCount = 1) ∧
    (Film.MergeSampleBuffersHW exFilmZeroSamples 0).isSome = true) :=
  ⟨by decide, by decide, mergePerScreenFactorGuard exFilmZeroSamples 0 (by decide) (by decide)⟩

/-- C5: within one merge call every accumulate dispatch, folded over the
actual trace, observes exactly its own group's channel in the scratch
buffer and its own group's scale in argument slots 4, 5, 6 — the slots are
rebound between the group's upload and its dispatch, and no dispatch ever
sees bindings left over from a previous group (or from the initial unbound
state). -/
theorem mergeScaleRebinding (f : FilmState) (idx : Nat)
    (hwf : WellFormed f) (hidx : idx < f.channel_IMAGEPIPELINEs.length) :
    ∃ tr, Film.MergeSampleBuffersHW f idx = some tr ∧
      dispatchRecords initialArgState tr =
        (if f.hasRadiancePerPixelNormalized then
          (enabledGroups f (f.imagePipelines[idx]?)).map (ppnRecordD (f.imagePipelines[idx]?))
        else []) ++
        (if f.hasRadiancePerScreenNormalized then
          (enabledGroups f (f.imagePipelines[idx]?)).map (psnRecordD f (f.imagePipelines[idx]?))
        else []) :=
  ⟨mergeTraceD f idx, Film.MergeSampleBuffersHW_eq f idx hwf hidx,
   dispatchRecords_mergeTraceD f idx⟩

/-- Witness for C5 at `exFilm`. -/
theorem mergeScaleRebinding_witness :
    WellFormed exFilm ∧ 0 < exFilm.channel_IMAGEPIPELINEs.length ∧
    (∃ tr, Film.MergeSampleBuffersHW exFilm 0 = some tr ∧
      dispatchRecords initialArgState tr =
        (if exFilm.hasRadiancePerPixelNormalized then
          (enabledGroups exFilm (exFilm.imagePipelines[0]?)).map
            (ppnRecordD (exFilm.imagePipelines[0]?))
        else []) ++
        (if exFilm.hasRadiancePerScreenNormalized then
          (enabledGroups exFilm (exFilm.imagePipelines[0]?)).map
            (psnRecordD exFilm (exFilm.imagePipelines[0]?))
        else [])) :=
  ⟨by decide, by decide, mergeScaleRebinding exFilm 0 (by decide) (by decide)⟩

/-- C3 (counterexample): on `exFilmNeutral`, index 0 is out of range for
the image-pipeline list, yet the single accumulate dispatch of the
per-screen-normalized loop observes scale (8, 8, 8) — the normalization
factor times unit scale — not the unit scale (1, 1, 1) the claim states. -/
theorem mergeNeutralTarget_counterexample :
    exFilmNeutral.imagePipelines.length ≤ 0 ∧
    (Film.MergeSampleBuffersHW exFilmNeutral 0).map (dispatchRecords initialArgState) =
      some [⟨KernelId.mergeRADIANCE_PER_SCREEN_NORMALIZEDKernel,
             some (HostLoc.radiancePerScreenChannel 0), some 8, some 8, some 8⟩] ∧
    ((8 : ℚ) ≠ 1) := by
  have hfac : perScreenFactor exFilmNeutral.pixelCount exFilmNeutral.perScreenSampleCount = 8 := by
    norm_num [perScreenFactor, exFilmNeutral]
  refine ⟨by decide, ?_, by norm_num⟩
  rw [Film.MergeSampleBuffersHW_eq exFilmNeutral 0 (by decide) (by decide), Option.map_some',
    dispatchRecords_mergeTraceD]
  have hgr : enabledGroups exFilmNeutral (exFilmNeutral.imagePipelines[0]?) = [0] := by decide
  simp only [hgr, show exFilmNeutral.hasRadiancePerPixelNormalized = false from rfl,
    show exFilmNeutral.hasRadiancePerScreenNormalized = true from rfl, Bool.false_eq_true,
    if_false, if_true, List.nil_append, List.map_cons, List.map_nil]
  norm_num [psnRecordD, psnScaleD, smulSpectrum, scaleD, unitSpectrum, hfac,
    show exFilmNeutral.imagePipelines[0]? = (none : Option ImagePipeline) from rfl]

/-- C3 (amended): an out-of-range image-pipeline index gives the neutral
target: every light group is treated as enabled (no group is skipped);
per-pixel-normalized dispatches observe unit scale (1, 1, 1), and
per-screen-normalized dispatches observe the per-screen normalization
factor times unit scale, i.e. (factor, factor, factor). -/
theorem mergeNeutralTarget (f : FilmState) (idx : Nat)
    (hwf : WellFormed f) (hidx : idx < f.channel_IMAGEPIPELINEs.length)
    (hout : f.imagePipelines.length ≤ idx) :
    ∃ tr, Film.MergeSampleBuffersHW f idx = some tr ∧
      dispatchRecords initialArgState tr =
        (if f.hasRadiancePerPixelNormalized then
          (List.range f.radianceGroupCount).map (fun i =>
            (⟨KernelId.mergeRADIANCE_PER_PIXEL_NORMALIZEDKernel,
              some (HostLoc.radiancePerPixelChannel i), some 1, some 1, some 1⟩ : DispatchRecord))
        else []) ++
        (if f.hasRadiancePerScreenNormalized then
          (List.range f.radianceGroupCount).map (fun i =>
            (⟨KernelId.mergeRADIANCE_PER_SCREEN_NORMALIZEDKernel,
              some (HostLoc.radiancePerScreenChannel i),
              some (perScreenFactor f.pixelCount f.perScreenSampleCount),
              some (perScreenFactor f.pixelCount f.perScreenSampleCount),
              some (perScreenFactor f.pixelCount f.perScreenSampleCount)⟩ : DispatchRecord))
        else []) := by
  have hip : f.imagePipelines[idx]? = none := by
    exact List.getElem?_eq_none hout
  refine ⟨mergeTraceD f idx, Film.MergeSampleBuffersHW_eq f idx hwf hidx, ?_⟩
  rw [dispatchRecords_mergeTraceD, hip]
  have hgroups : enabledGroups f none = List.range f.radianceGroupCount := by
    simp [enabledGroups, enabledD]
  rw [hgroups]
  have h1 : List.map (ppnRecordD (none : Option ImagePipeline)) (List.range f.radianceGroupCount) =
      List.map (fun i =>
        (⟨KernelId.mergeRADIANCE_PER_PIXEL_NORMALIZEDKernel,
          some (HostLoc.radiancePerPixelChannel i), some 1, some 1, some 1⟩ : DispatchRecord))
        (List.range f.radianceGroupCount) :=
    List.map_congr_left fun i _ => rfl
  have h2 : List.map (psnRecordD f (none : Option ImagePipeline)) (List.range f.radianceGroupCount) =
      List.map (fun i =>
        (⟨KernelId.mergeRADIANCE_PER_SCREEN_NORMALIZEDKernel,
          some (HostLoc.radiancePerScreenChannel i),
          some (perScreenFactor f.pixelCount f.perScreenSampleCount),
          some (perScreenFactor f.pixelCount f.perScreenSampleCount),
          some (perScreenFactor f.pixelCount f.perScreenSampleCount)⟩ : DispatchRecord))
        (List.range f.radianceGroupCount) :=
    List.map_congr_left fun i _ => by
      simp [psnRecordD, psnScaleD, smulSpectrum, scaleD, unitSpectrum, mul_one]
  rw [h1, h2]

/-- Witness for the amended C3 at `exFilmNeutral`. -/
theorem mergeNeutralTarget_witness :
    WellFormed exFilmNeutral ∧ 0 < exFilmNeutral.channel_IMAGEPIPELINEs.length ∧
    exFilmNeutral.imagePipelines.length ≤ 0 ∧
    (∃ tr, Film.MergeSampleBuffersHW exFilmNeutral 0 = some tr ∧
      dispatchRecords initialArgState tr =
        (if exFilmNeutral.hasRadiancePerPixelNormalized then
          (List.range exFilmNeutral.radianceGroupCount).map (fun i =>
            (⟨KernelId.mergeRADIANCE_PER_PIXEL_NORMALIZEDKernel,
              some (HostLoc.radiancePerPixelChannel i), some 1, some 1, some 1⟩ : DispatchRecord))
        else []) ++
        (if exFilmNeutral.hasRadiancePerScreenNormalized then
          (List.range exFilmNeutral.radianceGroupCount).map (fun i =>
            (⟨KernelId.mergeRADIANCE_PER_SCREEN_NORMALIZEDKernel,
              some (HostLoc.radiancePerScreenChannel i),
              some (perScreenFactor exFilmNeutral.pixelCount exFilmNeutral.perScreenSampleCount),
              some (perScreenFactor exFilmNeutral.pixelCount exFilmNeutral.perScreenSampleCount),
              some (perScreenFactor exFilmNeutral.pixelCount exFilmNeutral.perScreenSampleCount)⟩
              : DispatchRecord))
        else [])) :=
  ⟨by decide, by decide, by decide,
   mergeNeutralTarget exFilmNeutral 0 (by decide) (by decide) (by decide)⟩

/-- C10: on a well-formed film a merge call produces a trace exactly when
the given index is a valid position of the image-pipeline CHANNEL array;
the in-code guard only compares against the image-pipeline (scale-table)
list, while the initial upload and final download index the channel array
unguarded. -/
theorem mergeIndexSafety (f : FilmState) (idx : Nat) (hwf : WellFormed f) :
    (Film.MergeSampleBuffersHW f idx).isSome = true ↔
      idx < f.channel_IMAGEPIPELINEs.length := by
  constructor
  · intro h
    by_contra hlt
    have hnone : f.channel_IMAGEPIPELINEs[idx]? = none :=
      List.getElem?_eq_none (Nat.le_of_not_lt hlt)
    unfold Film.MergeSampleBuffersHW at h
    rw [hnone] at h
    simp at h
  · intro h
    rw [Film.MergeSampleBuffersHW_eq f idx hwf h]
    rfl

/-- Witness for C10 at `exFilm`: index 0 is valid and index 1 is not. -/
theorem mergeIndexSafety_witness :
    WellFormed exFilm ∧
    ((Film.MergeSampleBuffersHW exFilm 0).isSome = true ↔
      0 < exFilm.channel_IMAGEPIPELINEs.length) ∧
    ((Film.MergeSampleBuffersHW exFilm 1).isSome = true ↔
      1 < exFilm.channel_IMAGEPIPELINEs.length) :=
  ⟨by decide, mergeIndexSafety exFilm 0 (by decide), mergeIndexSafety exFilm 1 (by decide)⟩

/-- C8: teardown on a film still in its `SetUpHW` null-handle state (no
device ever selected, context never created) performs no observable
action at all — no kernel deletion, no buffer free, no host-channel
write (the teardown trace has no host-memory operation constructor at
all); on a fully built state it deletes the four kernels and frees the
four buffers before destroying the context and the dataset. -/
theorem deleteHWContextBehavior :
    Film.DeleteHWContext Film.SetUpHW = [] ∧
    Film.DeleteHWContext fullyBuiltHWState =
      [TeardownOp.deleteKernelOp KernelId.mergeInitializeKernel,
       TeardownOp.deleteKernelOp KernelId.mergeRADIANCE_PER_PIXEL_NORMALIZEDKernel,
       TeardownOp.deleteKernelOp KernelId.mergeRADIANCE_PER_SCREEN_NORMALIZEDKernel,
       TeardownOp.deleteKernelOp KernelId.mergeFinalizeKernel,
       TeardownOp.freeBufferOp BufId.IMAGEPIPELINE,
       TeardownOp.freeBufferOp BufId.ALPHA,
       TeardownOp.freeBufferOp BufId.OBJECT_ID,
       TeardownOp.freeBufferOp BufId.mergeBuffer,
       TeardownOp.deleteContextOp,
       TeardownOp.deleteDataSetOp] := by
  refine ⟨by decide, by decide⟩

theorem filter_blocksOf (p : HWOp → Bool) (blk : Nat → List HWOp) :
    ∀ l : List Nat, (blocksOf blk l).filter p = blocksOf (fun i => (blk i).filter p) l := by
  intro l
  induction l with
  | nil => rfl
  | cons i rest ih => rw [blocksOf, List.filter_append, ih, blocksOf]

theorem ppnBlockD_filter_queue (f : FilmState) (ip : Option ImagePipeline) (i : Nat) :
    (ppnBlockD f ip i).filter isQueueOp = ppnQueuePairD f i := by
  rfl

theorem psnBlockD_filter_queue (f : FilmState) (ip : Option ImagePipeline) (i : Nat) :
    (psnBlockD f ip i).filter isQueueOp = psnQueuePairD f i := by
  rfl

theorem countFinish_append (l r : List HWOp) :
    countFinish (l ++ r) = countFinish l + countFinish r := by
  induction l with
  | nil => simp [countFinish]
  | cons op t ih =>
    cases op <;> (simp [countFinish, ih]; try omega)

theorem countFinish_blocksOf_ppn (f : FilmState) (ip : Option ImagePipeline) :
    ∀ l : List Nat, countFinish (blocksOf (ppnBlockD f ip) l) = 0 := by
  intro l
  induction l with
  | nil => rfl
  | cons i rest ih =>
    rw [blocksOf, countFinish_append, ih]
    rfl

theorem countFinish_blocksOf_psn (f : FilmState) (ip : Option ImagePipeline) :
    ∀ l : List Nat, countFinish (blocksOf (psnBlockD f ip) l) = 0 := by
  intro l
  induction l with
  | nil => rfl
  | cons i rest ih =>
    rw [blocksOf, countFinish_append, ih]
    rfl

theorem countFinish_mergeTraceD (f : FilmState) (idx : Nat) :
    countFinish (mergeTraceD f idx) = 1 := by
  unfold mergeTraceD
  have h1 : ∀ rest, countFinish
      (HWOp.enqueueWrite BufId.IMAGEPIPELINE false (ipSizeD f idx)
          (HostLoc.imagePipelineChannel idx)
        :: HWOp.enqueueKernel KernelId.mergeInitializeKernel (roundUp f.pixelCount 256) 256
        :: rest) = countFinish rest := by
    intro rest; rfl
  rw [h1, countFinish_append, countFinish_append]
  have hppn : countFinish (if f.hasRadiancePerPixelNormalized then
      blocksOf (ppnBlockD f (f.imagePipelines[idx]?)) (enabledGroups f (f.imagePipelines[idx]?))
    else []) = 0 := by
    split
    · exact countFinish_blocksOf_ppn f _ _
    · rfl
  have hpsn : countFinish (if f.hasRadiancePerScreenNormalized then
      blocksOf (psnBlockD f (f.imagePipelines[idx]?)) (enabledGroups f (f.imagePipelines[idx]?))
    else []) = 0 := by
    split
    · exact countFinish_blocksOf_psn f _ _
    · rfl
  rw [hppn, hpsn]
  rfl

theorem ppnBlockD_kernel_dims (f : FilmState) (ip : Option ImagePipeline) (i : Nat)
    (k : KernelId) (g w : Nat) (h : HWOp.enqueueKernel k g w ∈ ppnBlockD f ip i) :
    g = roundUp f.pixelCount 256 ∧ w = 256 := by
  simp only [ppnBlockD, List.mem_cons, List.not_mem_nil, or_false] at h
  rcases h with h | h | h | h | h
  · simp at h
  · simp at h
  · simp at h
  · simp at h
  · simp only [HWOp.enqueueKernel.injEq] at h
    exact ⟨h.2.1, h.2.2⟩

theorem psnBlockD_kernel_dims (f : FilmState) (ip : Option ImagePipeline) (i : Nat)
    (k : KernelId) (g w : Nat) (h : HWOp.enqueueKernel k g w ∈ psnBlockD f ip i) :
    g = roundUp f.pixelCount 256 ∧ w = 256 := by
  simp only [psnBlockD, List.mem_cons, List.not_mem_nil, or_false] at h
  rcases h with h | h | h | h | h
  · simp at h
  · simp at h
  · simp at h
  · simp at h
  · simp only [HWOp.enqueueKernel.injEq] at h
    exact ⟨h.2.1, h.2.2⟩

theorem mergeTraceD_kernel_dims (f : FilmState) (idx : Nat) (k : KernelId) (g w : Nat)
    (h : HWOp.enqueueKernel k g w ∈ mergeTraceD f idx) :
    g = roundUp f.pixelCount 256 ∧ w = 256 := by
  unfold mergeTraceD at h
  rw [List.mem_cons] at h
  rcases h with h | h
  · simp at h
  rw [List.mem_cons] at h
  rcases h with h | h
  · simp only [HWOp.enqueueKernel.injEq] at h
    exact ⟨h.2.1, h.2.2⟩
  rw [List.mem_append] at h
  rcases h with h | h
  · rw [List.mem_append] at h
    rcases h with h | h
    · have h2 : HWOp.enqueueKernel k g w ∈ blocksOf (ppnBlockD f (f.imagePipelines[idx]?))
          (enabledGroups f (f.imagePipelines[idx]?)) := by
        by_cases hb : f.hasRadiancePerPixelNormalized = true
        · rwa [if_pos hb] at h
        · rw [if_neg hb] at h
          simp at h
      obtain ⟨i, _, hbm⟩ := mem_blocksOf h2
      exact ppnBlockD_kernel_dims f _ i k g w hbm
    · have h2 : HWOp.enqueueKernel k g w ∈ blocksOf (psnBlockD f (f.imagePipelines[idx]?))
          (enabledGroups f (f.imagePipelines[idx]?)) := by
        by_cases hb : f.hasRadiancePerScreenNormalized = true
        · rwa [if_pos hb] at h
        · rw [if_neg hb] at h
          simp at h
      obtain ⟨i, _, hbm⟩ := mem_blocksOf h2
      exact psnBlockD_kernel_dims f _ i k g w hbm
  · simp only [List.mem_cons, List.not_mem_nil, or_false] at h
    rcases h with h | h | h
    · simp only [HWOp.enqueueKernel.injEq] at h
      exact ⟨h.2.1, h.2.2⟩
    · simp at h
    · simp at h

theorem enqueuedOps_mergeTraceD (f : FilmState) (idx : Nat) :
    enqueuedOps (mergeTraceD f idx) =
      HWOp.enqueueWrite BufId.IMAGEPIPELINE false (ipSizeD f idx)
          (HostLoc.imagePipelineChannel idx)
      :: HWOp.enqueueKernel KernelId.mergeInitializeKernel (roundUp f.pixelCount 256) 256
      :: ((if f.hasRadiancePerPixelNormalized then
            blocksOf (ppnQueuePairD f) (enabledGroups f (f.imagePipelines[idx]?))
          else []) ++
          (if f.hasRadiancePerScreenNormalized then
            blocksOf (psnQueuePairD f) (enabledGroups f (f.imagePipelines[idx]?))
          else []) ++
          [HWOp.enqueueKernel KernelId.mergeFinalizeKernel (roundUp f.pixelCount 256) 256,
           HWOp.enqueueRead BufId.IMAGEPIPELINE false (ipSizeD f idx)
             (HostLoc.imagePipelineChannel idx),
           HWOp.finishQueue]) := by
  unfold enqueuedOps mergeTraceD
  rw [List.filter_cons_of_pos (by rfl), List.filter_cons_of_pos (by rfl),
    List.filter_append, List.filter_append]
  have hA : List.filter isQueueOp (if f.hasRadiancePerPixelNormalized then
      blocksOf (ppnBlockD f (f.imagePipelines[idx]?)) (enabledGroups f (f.imagePipelines[idx]?))
    else []) = (if f.hasRadiancePerPixelNormalized then
      blocksOf (ppnQueuePairD f) (enabledGroups f (f.imagePipelines[idx]?))
    else []) := by
    by_cases hb : f.hasRadiancePerPixelNormalized = true
    · rw [if_pos hb, if_pos hb, filter_blocksOf]
      rfl
    · rw [if_neg hb, if_neg hb]
      rfl
  have hB : List.filter isQueueOp (if f.hasRadiancePerScreenNormalized then
      blocksOf (psnBlockD f (f.imagePipelines[idx]?)) (enabledGroups f (f.imagePipelines[idx]?))
    else []) = (if f.hasRadiancePerScreenNormalized then
      blocksOf (psnQueuePairD f) (enabledGroups f (f.imagePipelines[idx]?))
    else []) := by
    by_cases hb : f.hasRadiancePerScreenNormalized = true
    · rw [if_pos hb, if_pos hb, filter_blocksOf]
      rfl
    · rw [if_neg hb, if_neg hb]
      rfl
  rw [hA, hB]
  rfl

/-- C4: one merge call enqueues, in order: the target channel upload, the
initialize dispatch, the per-pixel-normalized upload/accumulate pairs in
group index order, the per-screen-normalized pairs in group index order,
the finalize dispatch, the image-pipeline download, and a single blocking
queue drain last; every kernel dispatch (initialize, accumulates,
finalize) uses a 1-D index space of `RoundUp(pixelCount, 256)` with
workgroup size 256. -/
theorem mergeEnqueueOrder (f : FilmState) (idx : Nat)
    (hwf : WellFormed f) (hidx : idx < f.channel_IMAGEPIPELINEs.length) :
    ∃ tr, Film.MergeSampleBuffersHW f idx = some tr ∧
      enqueuedOps tr =
        HWOp.enqueueWrite BufId.IMAGEPIPELINE false (ipSizeD f idx)
            (HostLoc.imagePipelineChannel idx)
        :: HWOp.enqueueKernel KernelId.mergeInitializeKernel (roundUp f.pixelCount 256) 256
        :: ((if f.hasRadiancePerPixelNormalized then
              blocksOf (ppnQueuePairD f) (enabledGroups f (f.imagePipelines[idx]?))
            else []) ++
            (if f.hasRadiancePerScreenNormalized then
              blocksOf (psnQueuePairD f) (enabledGroups f (f.imagePipelines[idx]?))
            else []) ++
            [HWOp.enqueueKernel KernelId.mergeFinalizeKernel (roundUp f.pixelCount 256) 256,
             HWOp.enqueueRead BufId.IMAGEPIPELINE false (ipSizeD f idx)
               (HostLoc.imagePipelineChannel idx),
             HWOp.finishQueue]) ∧
      (∀ k g w, HWOp.enqueueKernel k g w ∈ tr → g = roundUp f.pixelCount 256 ∧ w = 256) ∧
      countFinish tr = 1 :=
  ⟨mergeTraceD f idx, Film.MergeSampleBuffersHW_eq f idx hwf hidx,
   enqueuedOps_mergeTraceD f idx,
   fun k g w h => mergeTraceD_kernel_dims f idx k g w h,
   countFinish_mergeTraceD f idx⟩

/-- Witness for C4 at `exFilm`. -/
theorem mergeEnqueueOrder_witness :
    WellFormed exFilm ∧ 0 < exFilm.channel_IMAGEPIPELINEs.length ∧
    (∃ tr, Film.MergeSampleBuffersHW exFilm 0 = some tr ∧
      enqueuedOps tr =
        HWOp.enqueueWrite BufId.IMAGEPIPELINE false (ipSizeD exFilm 0)
            (HostLoc.imagePipelineChannel 0)
        :: HWOp.enqueueKernel KernelId.mergeInitializeKernel (roundUp exFilm.pixelCount 256) 256
        :: ((if exFilm.hasRadiancePerPixelNormalized then
              blocksOf (ppnQueuePairD exFilm) (enabledGroups exFilm (exFilm.imagePipelines[0]?))
            else []) ++
            (if exFilm.hasRadiancePerScreenNormalized then
              blocksOf (psnQueuePairD exFilm) (enabledGroups exFilm (exFilm.imagePipelines[0]?))
            else []) ++
            [HWOp.enqueueKernel KernelId.mergeFinalizeKernel (roundUp exFilm.pixelCount 256) 256,
             HWOp.enqueueRead BufId.IMAGEPIPELINE false (ipSizeD exFilm 0)
               (HostLoc.imagePipelineChannel 0),
             HWOp.finishQueue]) ∧
      (∀ k g w, HWOp.enqueueKernel k g w ∈ tr → g = roundUp exFilm.pixelCount 256 ∧ w = 256) ∧
      countFinish tr = 1) :=
  ⟨by decide, by decide, mergeEnqueueOrder exFilm 0 (by decide) (by decide)⟩

theorem setPixelsAt_getElem?_ne (l : List Channel) (i j : Nat) (v : List ℚ) (h : j ≠ i) :
    (setPixelsAt l i v)[j]? = l[j]? := by
  unfold setPixelsAt
  cases hl : l[i]? with
  | none => rfl
  | some ch => exact List.getElem?_set_ne (Ne.symm h)

theorem setPixelsAt_getElem?_self (l : List Channel) (i : Nat) (v : List ℚ) :
    (setPixelsAt l i v)[i]? = (l[i]?).map (fun ch => { ch with pixels := v }) := by
  unfold setPixelsAt
  cases hl : l[i]? with
  | none => simp [hl]
  | some ch =>
    obtain ⟨hlt, _⟩ := List.getElem?_eq_some.mp hl
    rw [List.getElem?_set_eq_of_lt _ hlt]
    simp

/-- C9: a merge call writes no host memory except the pixel storage of
image-pipeline channel `idx`, which the final download overwrites with the
device image-pipeline buffer; every other channel (alpha, object-id, all
radiance group channels, the image-pipeline scale tables and every other
image-pipeline channel slot) is unchanged when the call returns. -/
theorem mergeHostEffect (f : FilmState) (idx : Nat)
    (hwf : WellFormed f) (hidx : idx < f.channel_IMAGEPIPELINEs.length) :
    ∃ tr, Film.MergeSampleBuffersHW f idx = some tr ∧
      ∀ dev : BufId → List ℚ,
        (applyTraceHost dev tr f).imagePipelines = f.imagePipelines ∧
        (applyTraceHost dev tr f).channel_ALPHA = f.channel_ALPHA ∧
        (applyTraceHost dev tr f).channel_OBJECT_ID = f.channel_OBJECT_ID ∧
        (applyTraceHost dev tr f).channel_RADIANCE_PER_PIXEL_NORMALIZEDs =
          f.channel_RADIANCE_PER_PIXEL_NORMALIZEDs ∧
        (applyTraceHost dev tr f).channel_RADIANCE_PER_SCREEN_NORMALIZEDs =
          f.channel_RADIANCE_PER_SCREEN_NORMALIZEDs ∧
        (∀ j, j ≠ idx → (applyTraceHost dev tr f).channel_IMAGEPIPELINEs[j]? =
          f.channel_IMAGEPIPELINEs[j]?) ∧
        (applyTraceHost dev tr f).channel_IMAGEPIPELINEs[idx]? =
          (f.channel_IMAGEPIPELINEs[idx]?).map
            (fun ch => { ch with pixels := dev BufId.IMAGEPIPELINE }) := by
  refine ⟨mergeTraceD f idx, Film.MergeSampleBuffersHW_eq f idx hwf hidx, fun dev => ?_⟩
  rw [applyTraceHost_mergeTraceD]
  exact ⟨rfl, rfl, rfl, rfl, rfl,
    fun j hj => setPixelsAt_getElem?_ne _ _ _ _ hj,
    setPixelsAt_getElem?_self _ _ _⟩

/-- Witness for C9 at `exFilm` with a fixed downloaded buffer content. -/
theorem mergeHostEffect_witness :
    WellFormed exFilm ∧ 0 < exFilm.channel_IMAGEPIPELINEs.length ∧
    (∃ tr, Film.MergeSampleBuffersHW exFilm 0 = some tr ∧
      ∀ dev : BufId → List ℚ,
        (applyTraceHost dev tr exFilm).imagePipelines = exFilm.imagePipelines ∧
        (applyTraceHost dev tr exFilm).channel_ALPHA = exFilm.channel_ALPHA ∧
        (applyTraceHost dev tr exFilm).channel_OBJECT_ID = exFilm.channel_OBJECT_ID ∧
        (applyTraceHost dev tr exFilm).channel_RADIANCE_PER_PIXEL_NORMALIZEDs =
          exFilm.channel_RADIANCE_PER_PIXEL_NORMALIZEDs ∧
        (applyTraceHost dev tr exFilm).channel_RADIANCE_PER_SCREEN_NORMALIZEDs =
          exFilm.channel_RADIANCE_PER_SCREEN_NORMALIZEDs ∧
        (∀ j, j ≠ 0 → (applyTraceHost dev tr exFilm).channel_IMAGEPIPELINEs[j]? =
          exFilm.channel_IMAGEPIPELINEs[j]?) ∧
        (applyTraceHost dev tr exFilm).channel_IMAGEPIPELINEs[0]? =
          (exFilm.channel_IMAGEPIPELINEs[0]?).map
            (fun ch => { ch with pixels := dev BufId.IMAGEPIPELINE })) :=
  ⟨by decide, by decide, mergeHostEffect exFilm 0 (by decide) (by decide)⟩

theorem Film.AllocateHWBuffers_eq (f : FilmState)
    (h0 : 0 < f.channel_IMAGEPIPELINEs.length)
    (hp : f.hasRadiancePerPixelNormalized = true →
      0 < f.channel_RADIANCE_PER_PIXEL_NORMALIZEDs.length)
    (hs : f.hasRadiancePerScreenNormalized = true →
      0 < f.channel_RADIANCE_PER_SCREEN_NORMALIZEDs.length) :
    Film.AllocateHWBuffers f = some (allocOpsD f) := by
  unfold Film.AllocateHWBuffers allocOpsD
  rw [List.getElem?_eq_getElem h0]
  have hA : (if f.hasRadiancePerPixelNormalized then
      (f.channel_RADIANCE_PER_PIXEL_NORMALIZEDs[0]?).map Channel.size
    else some 0) = some (if f.hasRadiancePerPixelNormalized then ppnSizeD f 0 else 0) := by
    by_cases hb : f.hasRadiancePerPixelNormalized = true
    · rw [if_pos hb, if_pos hb, List.getElem?_eq_getElem (hp hb)]
      simp [ppnSizeD, List.getElem?_eq_getElem (hp hb)]
    · rw [if_neg hb, if_neg hb]
  have hB : (if f.hasRadiancePerScreenNormalized then
      (f.channel_RADIANCE_PER_SCREEN_NORMALIZEDs[0]?).map Channel.size
    else some 0) = some (if f.hasRadiancePerScreenNormalized then psnSizeD f 0 else 0) := by
    by_cases hb : f.hasRadiancePerScreenNormalized = true
    · rw [if_pos hb, if_pos hb, List.getElem?_eq_getElem (hs hb)]
      simp [psnSizeD, List.getElem?_eq_getElem (hs hb)]
    · rw [if_neg hb, if_neg hb]
  rw [hA, hB]
  simp only [ipSizeD, mergeBufferSizeOf, List.getElem?_eq_getElem h0, Option.map_some',
    Option.getD_some]

/-- Any merge-scratch allocation in the allocation list carries a null
host pointer and the computed maximum size. -/
theorem allocOpsD_mergeBuffer_mem (f : FilmState) :
    ∀ src sz, AllocOp.allocBufferRO BufId.mergeBuffer src sz ∈ allocOpsD f →
      src = none ∧ sz = mergeBufferSizeOf f := by
  intro src sz h
  by_cases ha : f.hasAlpha = true <;> by_cases ho : f.hasObjectID = true <;>
    by_cases hm : 0 < mergeBufferSizeOf f <;>
      simp_all [allocOpsD]

/-- C6: `AllocateHWBuffers` allocates the alpha buffer iff the alpha
channel is present and the object-id buffer iff that channel is present;
it allocates the merge scratch buffer iff the maximum of the two per-group
channel byte sizes (0 for an absent channel kind) is positive, with no
host-side initialization data (`none` source) and sized to that maximum. -/
theorem allocateBufferPresence (f : FilmState)
    (h0 : 0 < f.channel_IMAGEPIPELINEs.length)
    (hp : f.hasRadiancePerPixelNormalized = true →
      0 < f.channel_RADIANCE_PER_PIXEL_NORMALIZEDs.length)
    (hs : f.hasRadiancePerScreenNormalized = true →
      0 < f.channel_RADIANCE_PER_SCREEN_NORMALIZEDs.length) :
    ∃ ops, Film.AllocateHWBuffers f = some ops ∧
      ((∃ sz, AllocOp.allocBufferRO BufId.ALPHA (some HostLoc.alphaChannel) sz ∈ ops) ↔
        f.hasAlpha = true) ∧
      ((∃ sz, AllocOp.allocBufferRO BufId.OBJECT_ID (some HostLoc.objectIdChannel) sz ∈ ops) ↔
        f.hasObjectID = true) ∧
      ((AllocOp.allocBufferRO BufId.mergeBuffer none (mergeBufferSizeOf f) ∈ ops) ↔
        0 < mergeBufferSizeOf f) ∧
      (∀ src sz, AllocOp.allocBufferRO BufId.mergeBuffer src sz ∈ ops →
        src = none ∧ sz = mergeBufferSizeOf f) := by
  refine ⟨allocOpsD f, Film.AllocateHWBuffers_eq f h0 hp hs, ?_, ?_, ?_,
    allocOpsD_mergeBuffer_mem f⟩
  · by_cases ha : f.hasAlpha = true <;> by_cases ho : f.hasObjectID = true <;>
      by_cases hm : 0 < mergeBufferSizeOf f <;>
        simp_all [allocOpsD]
  · by_cases ha : f.hasAlpha = true <;> by_cases ho : f.hasObjectID = true <;>
      by_cases hm : 0 < mergeBufferSizeOf f <;>
        simp_all [allocOpsD]
  · by_cases ha : f.hasAlpha = true <;> by_cases ho : f.hasObjectID = true <;>
      by_cases hm : 0 < mergeBufferSizeOf f <;>
        simp_all [allocOpsD]

/-- Witness for C6 at `exFilm` (alpha present, object-id absent, merge
scratch size 64 > 0). -/
theorem allocateBufferPresence_witness :
    0 < exFilm.channel_IMAGEPIPELINEs.length ∧
    (∃ ops, Film.AllocateHWBuffers exFilm = some ops ∧
      ((∃ sz, AllocOp.allocBufferRO BufId.ALPHA (some HostLoc.alphaChannel) sz ∈ ops) ↔
        exFilm.hasAlpha = true) ∧
      ((∃ sz, AllocOp.allocBufferRO BufId.OBJECT_ID (some HostLoc.objectIdChannel) sz ∈ ops) ↔
        exFilm.hasObjectID = true) ∧
      ((AllocOp.allocBufferRO BufId.mergeBuffer none (mergeBufferSizeOf exFilm) ∈ ops) ↔
        0 < mergeBufferSizeOf exFilm) ∧
      (∀ src sz, AllocOp.allocBufferRO BufId.mergeBuffer src sz ∈ ops →
        src = none ∧ sz = mergeBufferSizeOf exFilm)) :=
  ⟨by decide, allocateBufferPresence exFilm (by decide) (fun _ => by decide) (fun _ => by decide)⟩

theorem ppnBlockD_write_size (f : FilmState) (ip : Option ImagePipeline) (i : Nat)
    (bl : Bool) (sz : Nat) (src : HostLoc)
    (h : HWOp.enqueueWrite BufId.mergeBuffer bl sz src ∈ ppnBlockD f ip i) :
    sz = ppnSizeD f i := by
  simp only [ppnBlockD, List.mem_cons, List.not_mem_nil, or_false] at h
  rcases h with h | h | h | h | h
  · simp only [HWOp.enqueueWrite.injEq] at h
    exact h.2.2.1
  · simp at h
  · simp at h
  · simp at h
  · simp at h

theorem psnBlockD_write_size (f : FilmState) (ip : Option ImagePipeline) (i : Nat)
    (bl : Bool) (sz : Nat) (src : HostLoc)
    (h : HWOp.enqueueWrite BufId.mergeBuffer bl sz src ∈ psnBlockD f ip i) :
    sz = psnSizeD f i := by
  simp only [psnBlockD, List.mem_cons, List.not_mem_nil, or_false] at h
  rcases h with h | h | h | h | h
  · simp only [HWOp.enqueueWrite.injEq] at h
    exact h.2.2.1
  · simp at h
  · simp at h
  · simp at h
  · simp at h

/-- Under size uniformity of a channel list, every in-range entry has the
same size as entry 0. -/
theorem uniform_size_eq (l : List Channel)
    (hu : ∀ c1 ∈ l, ∀ c2 ∈ l, c1.size = c2.size) (i : Nat) (hi : i < l.length) :
    ((l[i]?).map Channel.size).getD 0 = ((l[0]?).map Channel.size).getD 0 := by
  have h0 : 0 < l.length := Nat.lt_of_le_of_lt (Nat.zero_le i) hi
  rw [List.getElem?_eq_getElem hi, List.getElem?_eq_getElem h0]
  simp only [Option.map_some', Option.getD_some]
  exact hu _ (List.getElem_mem hi) _ (List.getElem_mem h0)

/-- C7: the merge scratch buffer allocated by `AllocateHWBuffers` is at
least as large as every per-group channel upload `MergeSampleBuffersHW`
later enqueues into it, for both channel kinds and every group index.
Size uniformity of the per-group channel lists (each group channel has
the same byte size, as established by the film channel setup outside
this translation unit) is taken as a hypothesis. -/
theorem mergeScratchSizeInvariant (f : FilmState) (idx : Nat)
    (hwf : WellFormed f) (hidx : idx < f.channel_IMAGEPIPELINEs.length)
    (hp : f.hasRadiancePerPixelNormalized = true →
      0 < f.channel_RADIANCE_PER_PIXEL_NORMALIZEDs.length)
    (hs : f.hasRadiancePerScreenNormalized = true →
      0 < f.channel_RADIANCE_PER_SCREEN_NORMALIZEDs.length)
    (hup : ∀ c1 ∈ f.channel_RADIANCE_PER_PIXEL_NORMALIZEDs,
      ∀ c2 ∈ f.channel_RADIANCE_PER_PIXEL_NORMALIZEDs, c1.size = c2.size)
    (hus : ∀ c1 ∈ f.channel_RADIANCE_PER_SCREEN_NORMALIZEDs,
      ∀ c2 ∈ f.channel_RADIANCE_PER_SCREEN_NORMALIZEDs, c1.size = c2.size) :
    (∀ tr, Film.MergeSampleBuffersHW f idx = some tr →
      ∀ bl sz src, HWOp.enqueueWrite BufId.mergeBuffer bl sz src ∈ tr →
        sz ≤ mergeBufferSizeOf f) ∧
    (∀ ops, Film.AllocateHWBuffers f = some ops →
      ∀ src sz, AllocOp.allocBufferRO BufId.mergeBuffer src sz ∈ ops →
        sz = mergeBufferSizeOf f) := by
  constructor
  · intro tr htr bl sz src hm
    have htr2 : tr = mergeTraceD f idx :=
      (Option.some.inj ((Film.MergeSampleBuffersHW_eq f idx hwf hidx).symm.trans htr)).symm
    subst htr2
    unfold mergeTraceD at hm
    rw [List.mem_cons] at hm
    rcases hm with hm | hm
    · simp at hm
    rw [List.mem_cons] at hm
    rcases hm with hm | hm
    · simp at hm
    rw [List.mem_append] at hm
    rcases hm with hm | hm
    · rw [List.mem_append] at hm
      rcases hm with hm | hm
      · by_cases hb : f.hasRadiancePerPixelNormalized = true
        · rw [if_pos hb] at hm
          obtain ⟨i, hi, hbm⟩ := mem_blocksOf hm
          have hin : i < f.radianceGroupCount := by
            have := List.mem_filter.mp hi
            exact List.mem_range.mp this.1
          have hilt : i < f.channel_RADIANCE_PER_PIXEL_NORMALIZEDs.length :=
            Nat.lt_of_lt_of_le hin (hwf.1 hb)
          rw [ppnBlockD_write_size f _ i bl sz src hbm]
          have heq : ppnSizeD f i = ppnSizeD f 0 := uniform_size_eq _ hup i hilt
          rw [heq, mergeBufferSizeOf]
          exact le_trans (le_of_eq (by rw [if_pos hb])) (le_max_left _ _)
        · rw [if_neg hb] at hm
          simp at hm
      · by_cases hb : f.hasRadiancePerScreenNormalized = true
        · rw [if_pos hb] at hm
          obtain ⟨i, hi, hbm⟩ := mem_blocksOf hm
          have hin : i < f.radianceGroupCount := by
            have := List.mem_filter.mp hi
            exact List.mem_range.mp this.1
          have hilt : i < f.channel_RADIANCE_PER_SCREEN_NORMALIZEDs.length :=
            Nat.lt_of_lt_of_le hin (hwf.2.1 hb)
          rw [psnBlockD_write_size f _ i bl sz src hbm]
          have heq : psnSizeD f i = psnSizeD f 0 := uniform_size_eq _ hus i hilt
          rw [heq, mergeBufferSizeOf]
          exact le_trans (le_of_eq (by rw [if_pos hb])) (le_max_right _ _)
        · rw [if_neg hb] at hm
          simp at hm
    · simp only [List.mem_cons, List.not_mem_nil, or_false] at hm
      rcases hm with hm | hm | hm
      · simp at hm
      · simp at hm
      · simp at hm
  · intro ops hops src sz hm
    have h0 : 0 < f.channel_IMAGEPIPELINEs.length :=
      Nat.lt_of_le_of_lt (Nat.zero_le idx) hidx
    have hops2 : ops = allocOpsD f :=
      (Option.some.inj ((Film.AllocateHWBuffers_eq f h0 hp hs).symm.trans hops)).symm
    subst hops2
    exact (allocOpsD_mergeBuffer_mem f src sz hm).2

/-- Witness for C7 at `exFilm`. -/
theorem mergeScratchSizeInvariant_witness :
    WellFormed exFilm ∧ 0 < exFilm.channel_IMAGEPIPELINEs.length ∧
    ((∀ tr, Film.MergeSampleBuffersHW exFilm 0 = some tr →
      ∀ bl sz src, HWOp.enqueueWrite BufId.mergeBuffer bl sz src ∈ tr →
        sz ≤ mergeBufferSizeOf exFilm) ∧
    (∀ ops, Film.AllocateHWBuffers exFilm = some ops →
      ∀ src sz, AllocOp.allocBufferRO BufId.mergeBuffer src sz ∈ ops →
        sz = mergeBufferSizeOf exFilm)) :=
  ⟨by decide, by decide,
   mergeScratchSizeInvariant exFilm 0 (by decide) (by decide) (fun _ => by decide)
     (fun _ => by decide) (by decide) (by decide)⟩
